import Mathlib

/-!
# Notes application: authentication and ownership-scoped note operations

A shallow embedding of the request handlers of `server/index.js` and of the
middleware `server/middleware/auth.js`.

* A handler is a function from the store before the request to the response
  and the store after it.
* The libraries the handlers call (password hashing, token signing and
  verification, ObjectId syntax check) are the fields of `Env`.
* The persistence engine behind the Mongoose models is the record `Engine`:
  every primitive may throw, which is the `Except.error` case, and the
  handlers' `try`/`catch` blocks are the matches on it.  `memEngine` is the
  in-memory engine used for the statements about store contents; it takes
  the cast of a route parameter to an ObjectId as a parameter.
* Request body fields are either absent or strings.
* `jwt.sign` and the hash comparison are total: the signing secret is
  configured and the comparison does not throw.
* A new document takes its `_id` and its creation timestamp from `Ambient`,
  an input of the request like the body.
-/

namespace NotesApp

/-! ## Data model -/

/-- Textual form of a document identifier (a route parameter or an `_id`). -/
abbrev Id := String

/-- A document of the `User` collection: identifier, email, stored password hash. -/
structure User where
  _id : Id
  email : String
  password : String
  deriving DecidableEq, Repr

/-- A document of the `Note` collection. -/
structure Note where
  _id : Id
  text : String
  user : Id
  createdAt : Nat
  deriving DecidableEq, Repr

/-- JSON bodies the handlers send. `error` is the object with the single field
`error`; `errorDetails` has the fields `error` and `details`; `empty` is the
bodiless `send()`. -/
inductive Body where
  | error (msg : String)
  | errorDetails (msg details : String)
  | userToken (user : User) (token : String)
  | note (n : Note)
  | notes (ns : List Note)
  | empty
  deriving DecidableEq, Repr

/-- An HTTP response: status code and body. -/
structure Response where
  status : Nat
  body : Body
  deriving DecidableEq, Repr

/-- The field `error` of a body, when it has one. -/
def Body.errorField : Body → Option String
  | .error msg => some msg
  | .errorDetails msg _ => some msg
  | _ => none

/-- The body is exactly an object with the single field `error`. -/
def Body.isErrorOnly : Body → Bool
  | .error _ => true
  | _ => false

/-- The token carried by a body, when it has one. -/
def Body.tokenField : Body → Option String
  | .userToken _ t => some t
  | _ => none

/-! ## Libraries and ambient values -/

/-- The library functions the handlers call.
`hash` is the salted one-way hash applied when a user is saved,
`comparePassword stored candidate` the hash comparison of `user.comparePassword`,
`sign` is `jwt.sign` of the payload holding `_id` under the server secret,
`verify` is `jwt.verify` under the same secret (`none` when it throws),
`isValid` is `mongoose.Types.ObjectId.isValid`. -/
structure Env where
  hash : String → String
  comparePassword : String → String → Bool
  sign : Id → String
  verify : String → Option Id
  isValid : String → Bool

/-- Values a document constructor draws from its surroundings: the freshly
minted ObjectId and the clock reading used for the creation timestamp. -/
structure Ambient where
  oid : Id
  now : Nat
  deriving DecidableEq, Repr

/-- JavaScript falsiness of a body field that is absent or a string:
`!x` holds for `undefined` and for the empty string. -/
def falsy : Option String → Bool
  | none => true
  | some s => s == ""

/-- The string of a body field (only used where the field is known to be truthy). -/
def fieldValue : Option String → String
  | none => ""
  | some s => s

/-- Modelled from the spec: the constructor of `models/User.js` (not among the
sources) together with its save hook; the new document gets a fresh
identifier and stores the salted hash of the password, never the plaintext. -/
def newUser (env : Env) (amb : Ambient) (email password : String) : User :=
  { _id := amb.oid, email := email, password := env.hash password }

/-- Modelled from the spec: the constructor of `models/Note.js` (not among the
sources); the new document gets a fresh identifier and the creation
timestamp. -/
def newNote (amb : Ambient) (text : String) (owner : Id) : Note :=
  { _id := amb.oid, text := text, user := owner, createdAt := amb.now }

/-! ## Persistence engine -/

/-- The primitives of the persistence engine the handlers use. Each may throw
(`Except.error` with the message); a primitive that throws leaves the store
as it was.
* `userFindOneByEmail` is `User.findOne` filtered by email,
* `userFindOneById` is `User.findOne` filtered by `_id`,
* `userSave` is `user.save()`,
* `noteFindSorted` is `Note.find` filtered by owner, sorted by `createdAt`
  descending,
* `noteSave` is `note.save()`,
* `noteFindOneAndUpdate s id owner text` is `Note.findOneAndUpdate` filtered
  by `_id` and owner, replacing the text, returning the updated document,
* `noteFindOneAndDelete s id owner` is `Note.findOneAndDelete` filtered by
  `_id` and owner. -/
structure Engine (σ : Type) where
  userFindOneByEmail : σ → String → Except String (Option User)
  userFindOneById : σ → Id → Except String (Option User)
  userSave : σ → User → Except String (σ × User)
  noteFindSorted : σ → Id → Except String (List Note)
  noteSave : σ → Note → Except String (σ × Note)
  noteFindOneAndUpdate : σ → Id → Id → String → Except String (σ × Option Note)
  noteFindOneAndDelete : σ → Id → Id → Except String (σ × Option Note)

/-! ## Handlers of `server/index.js` -/

/-- `app.post('/api/register')`. -/
def register {σ : Type} (env : Env) (eng : Engine σ) (amb : Ambient) (s : σ)
    (email password : Option String) : Response × σ :=
  if falsy email || falsy password then
    (⟨400, .error "Email and password are required"⟩, s)
  else
    match eng.userFindOneByEmail s (fieldValue email) with
    | .error msg => (⟨400, .error msg⟩, s)
    | .ok (some _) => (⟨400, .error "Email already registered"⟩, s)
    | .ok none =>
      match eng.userSave s (newUser env amb (fieldValue email) (fieldValue password)) with
      | .error msg => (⟨400, .error msg⟩, s)
      | .ok (s', user) => (⟨201, .userToken user (env.sign user._id)⟩, s')

/-- `app.post('/api/login')`. -/
def login {σ : Type} (env : Env) (eng : Engine σ) (s : σ)
    (email password : Option String) : Response × σ :=
  if falsy email || falsy password then
    (⟨400, .error "Email and password are required"⟩, s)
  else
    match eng.userFindOneByEmail s (fieldValue email) with
    | .error msg => (⟨400, .error msg⟩, s)
    | .ok none => (⟨401, .error "Invalid login credentials"⟩, s)
    | .ok (some user) =>
      if !env.comparePassword user.password (fieldValue password) then
        (⟨401, .error "Invalid login credentials"⟩, s)
      else
        (⟨200, .userToken user (env.sign user._id)⟩, s)

/-- Handler of `app.get('/api/notes')`, run after `auth` set `req.user`. -/
def getNotes {σ : Type} (eng : Engine σ) (s : σ) (user : User) : Response × σ :=
  match eng.noteFindSorted s user._id with
  | .error msg => (⟨500, .errorDetails "Failed to fetch notes" msg⟩, s)
  | .ok notes => (⟨200, .notes notes⟩, s)

/-- Handler of `app.post('/api/notes')`, run after `auth` set `req.user`. -/
def postNote {σ : Type} (eng : Engine σ) (amb : Ambient) (s : σ) (user : User)
    (text : Option String) : Response × σ :=
  if falsy text then
    (⟨400, .error "Note text is required"⟩, s)
  else
    match eng.noteSave s (newNote amb (fieldValue text) user._id) with
    | .error msg => (⟨500, .errorDetails "Failed to create note" msg⟩, s)
    | .ok (s', note) => (⟨201, .note note⟩, s')

/-- Handler of `app.put('/api/notes/:id')`, run after `auth` set `req.user`. -/
def putNote {σ : Type} (eng : Engine σ) (s : σ) (user : User) (id : String)
    (text : Option String) : Response × σ :=
  if falsy text then
    (⟨400, .error "Note text is required"⟩, s)
  else
    match eng.noteFindOneAndUpdate s id user._id (fieldValue text) with
    | .error msg => (⟨500, .errorDetails "Failed to update note" msg⟩, s)
    | .ok (s', none) => (⟨404, .error "Note not found"⟩, s')
    | .ok (s', some note) => (⟨200, .note note⟩, s')

/-- Handler of `app.delete('/api/notes/:id')`, run after `auth` set `req.user`. -/
def deleteNote {σ : Type} (env : Env) (eng : Engine σ) (s : σ) (user : User)
    (id : String) : Response × σ :=
  if !env.isValid id then
    (⟨400, .error "Invalid note ID format"⟩, s)
  else
    match eng.noteFindOneAndDelete s id user._id with
    | .error msg => (⟨500, .errorDetails "Failed to delete note" msg⟩, s)
    | .ok (s', none) => (⟨404, .error "Note not found"⟩, s')
    | .ok (s', some _) => (⟨204, .empty⟩, s')

/-! ## Middleware `server/middleware/auth.js` -/

/-- JavaScript `String.prototype.replace` with a string pattern, on character
lists: the first occurrence of `pat` is replaced by `rep`. -/
def replaceFirstChars (pat rep : List Char) : List Char → List Char
  | [] => if pat.isPrefixOf [] then rep else []
  | c :: cs =>
    if pat.isPrefixOf (c :: cs) then rep ++ (c :: cs).drop pat.length
    else c :: replaceFirstChars pat rep cs

/-- `header.replace('Bearer ', '')`. -/
def stripBearer (header : String) : String :=
  String.mk (replaceFirstChars "Bearer ".data [] header.data)

/-- What the middleware does: answer itself, or call `next` with `req.user`
and `req.token` set. -/
inductive AuthResult where
  | respond (r : Response)
  | next (user : User) (token : String)
  deriving DecidableEq, Repr

/-- The response of the middleware in every rejecting branch. -/
def pleaseAuthenticate : Response := ⟨401, .error "Please authenticate"⟩

/-- The middleware `auth`; `header` is `req.header('Authorization')`. -/
def auth {σ : Type} (env : Env) (eng : Engine σ) (s : σ) (header : Option String) :
    AuthResult :=
  match header with
  | none => .respond pleaseAuthenticate
  | some h =>
    let token := stripBearer h
    if token == "" then .respond pleaseAuthenticate
    else
      match env.verify token with
      | none => .respond pleaseAuthenticate
      | some id =>
        match eng.userFindOneById s id with
        | .error _ => .respond pleaseAuthenticate
        | .ok none => .respond pleaseAuthenticate
        | .ok (some user) => .next user token

/-- A protected route `app.METHOD(path, auth, handler)`: the handler runs only
when the middleware calls `next`. -/
def protectedRoute {σ : Type} (env : Env) (eng : Engine σ) (s : σ)
    (header : Option String) (handler : User → Response × σ) : Response × σ :=
  match auth env eng s header with
  | .respond r => (r, s)
  | .next user _ => handler user

/-- Route `GET /api/notes`. -/
def apiNotesGet {σ : Type} (env : Env) (eng : Engine σ) (s : σ)
    (header : Option String) : Response × σ :=
  protectedRoute env eng s header (fun user => getNotes eng s user)

/-- Route `POST /api/notes`. -/
def apiNotesPost {σ : Type} (env : Env) (eng : Engine σ) (amb : Ambient) (s : σ)
    (header : Option String) (text : Option String) : Response × σ :=
  protectedRoute env eng s header (fun user => postNote eng amb s user text)

/-- Route `PUT /api/notes/:id`. -/
def apiNotesPut {σ : Type} (env : Env) (eng : Engine σ) (s : σ)
    (header : Option String) (id : String) (text : Option String) : Response × σ :=
  protectedRoute env eng s header (fun user => putNote eng s user id text)

/-- Route `DELETE /api/notes/:id`. -/
def apiNotesDelete {σ : Type} (env : Env) (eng : Engine σ) (s : σ)
    (header : Option String) (id : String) : Response × σ :=
  protectedRoute env eng s header (fun user => deleteNote env eng s user id)

/-! ## In-memory persistence engine -/

/-- Ordering of the list query: `a` may precede `b` when `a` was created no
earlier than `b` (sort by `createdAt` descending). -/
def newerFirst (a b : Note) : Prop := b.createdAt ≤ a.createdAt

instance newerFirstDecidable : DecidableRel newerFirst :=
  fun a b => inferInstanceAs (Decidable (b.createdAt ≤ a.createdAt))

instance newerFirstTotal : IsTotal Note newerFirst :=
  ⟨fun a b => Nat.le_total b.createdAt a.createdAt⟩

instance newerFirstTrans : IsTrans Note newerFirst :=
  ⟨fun _ _ _ hab hbc => Nat.le_trans hbc hab⟩

/-- The two collections, for a given cast of strings to ObjectIds (`cast`,
`none` when the string is no ObjectId). `_id` is the primary key of each
collection: no two documents share it. The `_id` of a note is an ObjectId
in its canonical spelling: casting it gives it back. Documents are kept in
insertion order. -/
structure Store (cast : String → Option Id) where
  users : List User
  notes : List Note
  users_key : (users.map User._id).Nodup
  notes_key : (notes.map Note._id).Nodup
  notes_canon : ∀ n ∈ notes, cast n._id = some n._id

/-- The store with no documents. -/
def emptyStore (cast : String → Option Id) : Store cast :=
  { users := [], notes := [], users_key := List.nodup_nil, notes_key := List.nodup_nil,
    notes_canon := fun _ h => nomatch h }

/-- The filter of the note mutations: `_id` and owner together. -/
def ownedBy (id owner : Id) (n : Note) : Bool := n._id == id && n.user == owner

/-- Replace the text of the document whose key is `id`. -/
def setText (id : Id) (text : String) (n : Note) : Note :=
  if n._id == id then { n with text := text } else n

/-- Modelled from the spec: the persistence engine (MongoDB behind the Mongoose
models, not among the sources) with the primitives `findOne`, `find`,
`insert`, `findOneAndUpdate` and `findOneAndDelete` on in-memory collections.
* The note mutations receive the route parameter as a string and cast it to
  an ObjectId before filtering, so every spelling of a stored identifier
  matches it; a string that is no ObjectId makes the query throw the cast
  error.
* An insert throws when the `_id` is already present (duplicate key) and when
  the `_id` of a note is not a canonical ObjectId; no other primitive throws.
* The engine keeps no uniqueness index on emails.
* The sorted query is a stable sort of the collection in insertion order, so
  notes with equal timestamps come out in insertion order. -/
def memEngine (cast : String → Option Id) : Engine (Store cast) where
  userFindOneByEmail s email := .ok (s.users.find? (fun u => u.email == email))
  userFindOneById s id := .ok (s.users.find? (fun u => u._id == id))
  userSave s u :=
    if h : u._id ∈ s.users.map User._id then .error "E11000 duplicate key error"
    else .ok ({ s with users := s.users ++ [u],
                       users_key := by
                         rw [List.map_append, List.nodup_append]
                         refine ⟨s.users_key, List.nodup_singleton _, ?_⟩
                         intro x hx hx2
                         simp only [List.map_cons, List.map_nil, List.mem_singleton] at hx2
                         exact h (hx2 ▸ hx) }, u)
  noteFindSorted s owner :=
    .ok ((s.notes.filter (fun n => n.user == owner)).insertionSort newerFirst)
  noteSave s n :=
    if hc : cast n._id = some n._id then
      if h : n._id ∈ s.notes.map Note._id then .error "E11000 duplicate key error"
      else .ok ({ s with notes := s.notes ++ [n],
                         notes_key := by
                           rw [List.map_append, List.nodup_append]
                           refine ⟨s.notes_key, List.nodup_singleton _, ?_⟩
                           intro x hx hx2
                           simp only [List.map_cons, List.map_nil, List.mem_singleton] at hx2
                           exact h (hx2 ▸ hx),
                         notes_canon := by
                           intro m hm
                           rcases List.mem_append.mp hm with hm | hm
                           · exact s.notes_canon m hm
                           · rw [List.mem_singleton.mp hm]
                             exact hc }, n)
    else .error "Cast to ObjectId failed"
  noteFindOneAndUpdate s id owner text :=
    match cast id with
    | none => .error "Cast to ObjectId failed"
    | some c =>
      match s.notes.find? (ownedBy c owner) with
      | none => .ok (s, none)
      | some m =>
        .ok ({ s with notes := s.notes.map (setText m._id text),
                      notes_key := by
                        have hid : Note._id ∘ setText m._id text = Note._id := by
                          funext n
                          simp only [Function.comp, setText]
                          split <;> rfl
                        rw [List.map_map, hid]
                        exact s.notes_key,
                      notes_canon := by
                        intro x hx
                        obtain ⟨y, hy, rfl⟩ := List.mem_map.mp hx
                        have hid : (setText m._id text y)._id = y._id := by
                          unfold setText
                          split <;> rfl
                        rw [hid]
                        exact s.notes_canon y hy },
             some { m with text := text })
  noteFindOneAndDelete s id owner :=
    match cast id with
    | none => .error "Cast to ObjectId failed"
    | some c =>
      match s.notes.find? (ownedBy c owner) with
      | none => .ok (s, none)
      | some m =>
        .ok ({ s with notes := s.notes.filter (fun n => n._id != m._id),
                      notes_key :=
                        s.notes_key.sublist ((List.filter_sublist s.notes).map Note._id),
                      notes_canon := fun x hx => s.notes_canon x (List.mem_of_mem_filter hx) },
             some m)

/-- An engine that is unreachable: every primitive throws. -/
def downEngine : Engine Unit where
  userFindOneByEmail _ _ := .error "connection lost"
  userFindOneById _ _ := .error "connection lost"
  userSave _ _ := .error "connection lost"
  noteFindSorted _ _ := .error "connection lost"
  noteSave _ _ := .error "connection lost"
  noteFindOneAndUpdate _ _ _ _ := .error "connection lost"
  noteFindOneAndDelete _ _ _ := .error "connection lost"

/-! ## A concrete environment for evaluation -/

/-- Hexadecimal digit. -/
def isHexDigit (c : Char) : Bool :=
  ('0' ≤ c && c ≤ '9') || ('a' ≤ c && c ≤ 'f') || ('A' ≤ c && c ≤ 'F')

/-- A stand-in for the libraries, used to evaluate the handlers on concrete
requests: the hash prepends a marker, a token is the identifier behind the
marker `jwt.`, and a well-formed ObjectId is a string of 24 hexadecimal
digits. -/
def demoEnv : Env where
  hash p := "h:" ++ p
  comparePassword stored candidate := stored == "h:" ++ candidate
  sign id := "jwt." ++ id
  verify t :=
    if "jwt.".data.isPrefixOf t.data then some (String.mk (t.data.drop 4)) else none
  isValid id := id.data.length == 24 && id.data.all isHexDigit

/-- Lower-case form of a hexadecimal digit. -/
def lowerHex (c : Char) : Char :=
  match c with
  | 'A' => 'a'
  | 'B' => 'b'
  | 'C' => 'c'
  | 'D' => 'd'
  | 'E' => 'e'
  | 'F' => 'f'
  | c => c

/-- A stand-in for the cast of a string to an ObjectId, used to evaluate the
handlers on concrete requests: a string of 24 hexadecimal digits is an
ObjectId, whose canonical spelling is in lower case; no other string is. -/
def hexCast (id : String) : Option Id :=
  if id.data.length == 24 && id.data.all isHexDigit then
    some (String.mk (id.data.map lowerHex))
  else none

end NotesApp

namespace NotesApp

/-! ## Reachable stores -/

/-- One request served on the in-memory engine: any route, any request data,
any ambient values. -/
inductive Step (env : Env) (cast : String → Option Id) : Store cast → Store cast → Prop where
  | register (amb : Ambient) (s : Store cast) (email password : Option String) :
      Step env cast s (register env (memEngine cast) amb s email password).2
  | login (s : Store cast) (email password : Option String) :
      Step env cast s (login env (memEngine cast) s email password).2
  | list (s : Store cast) (header : Option String) :
      Step env cast s (apiNotesGet env (memEngine cast) s header).2
  | create (amb : Ambient) (s : Store cast) (header : Option String) (text : Option String) :
      Step env cast s (apiNotesPost env (memEngine cast) amb s header text).2
  | update (s : Store cast) (header : Option String) (id : String) (text : Option String) :
      Step env cast s (apiNotesPut env (memEngine cast) s header id text).2
  | delete (s : Store cast) (header : Option String) (id : String) :
      Step env cast s (apiNotesDelete env (memEngine cast) s header id).2

/-- Stores reachable from the empty store by serving requests. -/
inductive Reachable (env : Env) (cast : String → Option Id) : Store cast → Prop where
  | init : Reachable env cast (emptyStore cast)
  | step {s s' : Store cast} : Reachable env cast s → Step env cast s s' →
      Reachable env cast s'

/-! ## Concrete users, notes and stores for evaluation -/

/-- Identifier of Alice. -/
def aliceId : Id := "0000000000000000000000a1"

/-- Identifier of Bob. -/
def bobId : Id := "0000000000000000000000b2"

/-- Identifier of the first note. -/
def note1Id : Id := "0000000000000000000000c1"

/-- Identifier of the second note. -/
def note2Id : Id := "0000000000000000000000c2"

/-- Alice, registered with the password `secret`. -/
def alice : User := { _id := aliceId, email := "a@x.com", password := "h:secret" }

/-- Bob, registered with the password `hunter2`. -/
def bob : User := { _id := bobId, email := "b@x.com", password := "h:hunter2" }

/-- Alice's note created at time 10. -/
def buyMilk : Note := { _id := note1Id, text := "buy milk", user := aliceId, createdAt := 10 }

/-- Alice's note created at time 20. -/
def callMom : Note := { _id := note2Id, text := "call mom", user := aliceId, createdAt := 20 }

/-- Alice and Bob registered, no notes. -/
def twoUsers : Store hexCast :=
  { users := [alice, bob], notes := [], users_key := by decide, notes_key := by decide,
    notes_canon := by decide }

/-- Alice and Bob registered, Alice owns the note `buyMilk`. -/
def oneNote : Store hexCast :=
  { users := [alice, bob], notes := [buyMilk], users_key := by decide, notes_key := by decide,
    notes_canon := by decide }

/-- Alice and Bob registered, Alice owns `buyMilk` and `callMom`. -/
def twoNotes : Store hexCast :=
  { users := [alice, bob], notes := [buyMilk, callMom], users_key := by decide,
    notes_key := by decide, notes_canon := by decide }

end NotesApp

namespace NotesApp

/-! ## Facts about the in-memory engine -/

theorem Store.eq_of_fields {cast : String → Option Id} {s t : Store cast}
    (hu : s.users = t.users) (hn : s.notes = t.notes) : s = t := by
  cases s; cases t; simp only at hu hn; subst hu; subst hn; rfl

theorem falsy_some_of_ne {t : String} (ht : t ≠ "") : falsy (some t) = false := by
  simp [falsy, ht]

theorem userFindOneByEmail_mem {cast : String → Option Id} (s : Store cast) (email : String) :
    (memEngine cast).userFindOneByEmail s email =
      .ok (s.users.find? (fun u : User => u.email == email)) := rfl

theorem userFindOneById_mem {cast : String → Option Id} (s : Store cast) (id : Id) :
    (memEngine cast).userFindOneById s id =
      .ok (s.users.find? (fun u : User => u._id == id)) := rfl

theorem noteSave_uncast {cast : String → Option Id} {s : Store cast} {n : Note}
    (hc : cast n._id ≠ some n._id) :
    (memEngine cast).noteSave s n = .error "Cast to ObjectId failed" := by
  simp only [memEngine]; rw [dif_neg hc]

theorem noteSave_dup {cast : String → Option Id} {s : Store cast} {n : Note}
    (hc : cast n._id = some n._id) (h : n._id ∈ s.notes.map Note._id) :
    (memEngine cast).noteSave s n = .error "E11000 duplicate key error" := by
  simp only [memEngine]; rw [dif_pos hc, dif_pos h]

theorem noteSave_fresh {cast : String → Option Id} {s : Store cast} {n : Note}
    (hc : cast n._id = some n._id) (h : n._id ∉ s.notes.map Note._id) :
    ∃ s', (memEngine cast).noteSave s n = .ok (s', n) ∧ s'.notes = s.notes ++ [n] ∧
      s'.users = s.users := by
  simp only [memEngine]; rw [dif_pos hc, dif_neg h]
  exact ⟨_, rfl, rfl, rfl⟩

theorem userSave_dup {cast : String → Option Id} {s : Store cast} {u : User}
    (h : u._id ∈ s.users.map User._id) :
    (memEngine cast).userSave s u = .error "E11000 duplicate key error" := by
  simp only [memEngine]; rw [dif_pos h]

theorem userSave_fresh {cast : String → Option Id} {s : Store cast} {u : User}
    (h : u._id ∉ s.users.map User._id) :
    ∃ s', (memEngine cast).userSave s u = .ok (s', u) ∧ s'.users = s.users ++ [u] ∧
      s'.notes = s.notes := by
  simp only [memEngine]; rw [dif_neg h]
  exact ⟨_, rfl, rfl, rfl⟩

theorem update_uncast {cast : String → Option Id} {s : Store cast} {id owner : Id}
    {text : String} (hc : cast id = none) :
    (memEngine cast).noteFindOneAndUpdate s id owner text =
      .error "Cast to ObjectId failed" := by
  simp only [memEngine]; rw [hc]

theorem update_none {cast : String → Option Id} {s : Store cast} {id c owner : Id}
    {text : String} (hc : cast id = some c)
    (h : s.notes.find? (ownedBy c owner) = none) :
    (memEngine cast).noteFindOneAndUpdate s id owner text = .ok (s, none) := by
  simp only [memEngine]; rw [hc]; simp only; rw [h]

theorem update_some {cast : String → Option Id} {s : Store cast} {id c owner : Id}
    (text : String) {m : Note} (hc : cast id = some c)
    (h : s.notes.find? (ownedBy c owner) = some m) :
    ∃ s', (memEngine cast).noteFindOneAndUpdate s id owner text =
        .ok (s', some { m with text := text }) ∧
      s'.notes = s.notes.map (setText m._id text) ∧ s'.users = s.users := by
  simp only [memEngine]; rw [hc]; simp only; rw [h]
  exact ⟨_, rfl, rfl, rfl⟩

theorem delete_uncast {cast : String → Option Id} {s : Store cast} {id owner : Id}
    (hc : cast id = none) :
    (memEngine cast).noteFindOneAndDelete s id owner = .error "Cast to ObjectId failed" := by
  simp only [memEngine]; rw [hc]

theorem delete_none {cast : String → Option Id} {s : Store cast} {id c owner : Id}
    (hc : cast id = some c) (h : s.notes.find? (ownedBy c owner) = none) :
    (memEngine cast).noteFindOneAndDelete s id owner = .ok (s, none) := by
  simp only [memEngine]; rw [hc]; simp only; rw [h]

theorem delete_some {cast : String → Option Id} {s : Store cast} {id c owner : Id} {m : Note}
    (hc : cast id = some c) (h : s.notes.find? (ownedBy c owner) = some m) :
    ∃ s', (memEngine cast).noteFindOneAndDelete s id owner = .ok (s', some m) ∧
      s'.notes = s.notes.filter (fun n => n._id != m._id) ∧ s'.users = s.users := by
  simp only [memEngine]; rw [hc]; simp only; rw [h]
  exact ⟨_, rfl, rfl, rfl⟩

/-- Two documents of the note collection with the same key are the same document. -/
theorem Store.note_eq_of_id {cast : String → Option Id} {s : Store cast} {m n : Note}
    (hm : m ∈ s.notes) (hn : n ∈ s.notes) (h : m._id = n._id) : m = n :=
  List.inj_on_of_nodup_map s.notes_key hm hn h

/-- The filtered lookup finds a stored document that matches the filter. -/
theorem find_owned {cast : String → Option Id} {s : Store cast} {n : Note}
    (hn : n ∈ s.notes) : s.notes.find? (ownedBy n._id n.user) = some n := by
  cases hfind : s.notes.find? (ownedBy n._id n.user) with
  | none =>
    rw [List.find?_eq_none] at hfind
    exact absurd (by simp [ownedBy]) (hfind n hn)
  | some m =>
    have hp := List.find?_some hfind
    have hmem := List.mem_of_find?_eq_some hfind
    simp only [ownedBy, Bool.and_eq_true, beq_iff_eq] at hp
    rw [Store.note_eq_of_id hmem hn hp.1]

/-- The filtered lookup finds nothing exactly when no stored document has the
key and the owner. -/
theorem find_owned_none {cast : String → Option Id} {s : Store cast} {id owner : Id} :
    s.notes.find? (ownedBy id owner) = none ↔
      ∀ m ∈ s.notes, ¬ (m._id = id ∧ m.user = owner) := by
  rw [List.find?_eq_none]
  simp [ownedBy]

/-- A successful create on the in-memory engine: the text was truthy, the
identifier was unused, and the store gained exactly the new document. -/
theorem postNote_created {cast : String → Option Id} {amb : Ambient} {s s' : Store cast}
    {u : User} {text : Option String} {n : Note}
    (h : postNote (memEngine cast) amb s u text = (⟨201, .note n⟩, s')) :
    falsy text = false ∧ n = newNote amb (fieldValue text) u._id ∧
      amb.oid ∉ s.notes.map Note._id ∧ s'.notes = s.notes ++ [n] ∧ s'.users = s.users := by
  unfold postNote at h
  by_cases hf : falsy text = true
  · simp [hf] at h
  · simp only [hf, Bool.false_eq_true, ↓reduceIte] at h
    by_cases hc : cast (newNote amb (fieldValue text) u._id)._id =
        some (newNote amb (fieldValue text) u._id)._id
    · by_cases hm : (newNote amb (fieldValue text) u._id)._id ∈ s.notes.map Note._id
      · rw [noteSave_dup hc hm] at h
        simp at h
      · obtain ⟨s2, hs2, hnotes, husers⟩ := noteSave_fresh hc hm
        rw [hs2] at h
        simp only [Prod.mk.injEq, Response.mk.injEq, Body.note.injEq, true_and] at h
        obtain ⟨hn, hs⟩ := h
        subst hs
        subst hn
        exact ⟨by simpa using hf, rfl, hm, hnotes, husers⟩
    · rw [noteSave_uncast hc] at h
      simp at h

end NotesApp

namespace NotesApp

/-! ## Handlers on the in-memory engine -/

theorem putNote_absent {cast : String → Option Id} {s : Store cast} {u : User}
    {id : String} {c : Id} {text : Option String}
    (hf : falsy text = false) (hc : cast id = some c)
    (h : s.notes.find? (ownedBy c u._id) = none) :
    putNote (memEngine cast) s u id text = (⟨404, .error "Note not found"⟩, s) := by
  unfold putNote
  simp only [hf, Bool.false_eq_true, ↓reduceIte]
  rw [update_none hc h]

theorem putNote_present {cast : String → Option Id} {s : Store cast} {u : User}
    {id : String} {c : Id} {text : Option String} {m : Note}
    (hf : falsy text = false) (hc : cast id = some c)
    (h : s.notes.find? (ownedBy c u._id) = some m) :
    ∃ s', putNote (memEngine cast) s u id text =
        (⟨200, .note { m with text := fieldValue text }⟩, s') ∧
      s'.notes = s.notes.map (setText m._id (fieldValue text)) ∧ s'.users = s.users := by
  obtain ⟨s2, hs2, hnotes, husers⟩ := update_some (fieldValue text) hc h
  refine ⟨s2, ?_, hnotes, husers⟩
  unfold putNote
  simp only [hf, Bool.false_eq_true, ↓reduceIte]
  rw [hs2]

theorem putNote_uncast {cast : String → Option Id} {s : Store cast} {u : User}
    {id : String} {text : Option String}
    (hf : falsy text = false) (hc : cast id = none) :
    putNote (memEngine cast) s u id text =
      (⟨500, .errorDetails "Failed to update note" "Cast to ObjectId failed"⟩, s) := by
  unfold putNote
  simp only [hf, Bool.false_eq_true, ↓reduceIte]
  rw [update_uncast hc]

theorem deleteNote_invalid {σ : Type} (env : Env) (eng : Engine σ) (s : σ) (u : User)
    {id : String} (hv : env.isValid id = false) :
    deleteNote env eng s u id = (⟨400, .error "Invalid note ID format"⟩, s) := by
  unfold deleteNote
  simp [hv]

theorem deleteNote_uncast {cast : String → Option Id} (env : Env) {s : Store cast}
    {u : User} {id : String} (hv : env.isValid id = true) (hc : cast id = none) :
    deleteNote env (memEngine cast) s u id =
      (⟨500, .errorDetails "Failed to delete note" "Cast to ObjectId failed"⟩, s) := by
  unfold deleteNote
  simp only [hv, Bool.not_true, Bool.false_eq_true, ↓reduceIte]
  rw [delete_uncast hc]

theorem deleteNote_absent {cast : String → Option Id} (env : Env) {s : Store cast}
    {u : User} {id : String} {c : Id}
    (hv : env.isValid id = true) (hc : cast id = some c)
    (h : s.notes.find? (ownedBy c u._id) = none) :
    deleteNote env (memEngine cast) s u id = (⟨404, .error "Note not found"⟩, s) := by
  unfold deleteNote
  simp only [hv, Bool.not_true, Bool.false_eq_true, ↓reduceIte]
  rw [delete_none hc h]

theorem deleteNote_present {cast : String → Option Id} (env : Env) {s : Store cast}
    {u : User} {id : String} {c : Id} {m : Note}
    (hv : env.isValid id = true) (hc : cast id = some c)
    (h : s.notes.find? (ownedBy c u._id) = some m) :
    ∃ s', deleteNote env (memEngine cast) s u id = (⟨204, .empty⟩, s') ∧
      s'.notes = s.notes.filter (fun n => n._id != m._id) ∧ s'.users = s.users := by
  obtain ⟨s2, hs2, hnotes, husers⟩ := delete_some hc h
  refine ⟨s2, ?_, hnotes, husers⟩
  unfold deleteNote
  simp only [hv, Bool.not_true, Bool.false_eq_true, ↓reduceIte]
  rw [hs2]

theorem getNotes_mem {cast : String → Option Id} (s : Store cast) (u : User) :
    getNotes (memEngine cast) s u =
      (⟨200, .notes ((s.notes.filter (fun n => n.user == u._id)).insertionSort newerFirst)⟩, s) := by
  rfl

/-! ## C1: isolation between users -/

/-- C1. Note isolation between users: when user `a` successfully creates note
`n` (status 201) and `b` is a different user, then on the resulting store
(1) the list of `b` does not contain `n`, (2) an update by `b` of the
identifier of `n` with any non-empty text answers 404 `Note not found`,
(3) a delete by `b` of that identifier answers 404 `Note not found`
(the identifier of `n`, minted by the ObjectId generator, is well-formed),
and after the update followed by the delete the store is the same store, so `n`
is still in it with the text it was created with and owner `a`. -/
theorem note_isolation (env : Env) (cast : String → Option Id) (s s' : Store cast)
    (amb : Ambient) (a b : User)
    (text : Option String) (n : Note)
    (hab : a._id ≠ b._id)
    (hvalid : env.isValid n._id = true)
    (hpost : postNote (memEngine cast) amb s a text = (⟨201, .note n⟩, s')) :
    (∃ l, getNotes (memEngine cast) s' b = (⟨200, .notes l⟩, s') ∧ n ∉ l) ∧
    (∀ t : String, t ≠ "" →
      putNote (memEngine cast) s' b n._id (some t) = (⟨404, .error "Note not found"⟩, s')) ∧
    deleteNote env (memEngine cast) s' b n._id = (⟨404, .error "Note not found"⟩, s') ∧
    (∀ t : String, t ≠ "" →
      (deleteNote env (memEngine cast) (putNote (memEngine cast) s' b n._id (some t)).2 b n._id).2 = s') ∧
    n ∈ s'.notes ∧ n.text = fieldValue text ∧ n.user = a._id := by
  obtain ⟨_, hn, _, hnotes, _⟩ := postNote_created hpost
  have hmem : n ∈ s'.notes := by rw [hnotes]; simp
  have huser : n.user = a._id := by rw [hn]; rfl
  have hnone : s'.notes.find? (ownedBy n._id b._id) = none := by
    rw [find_owned_none]
    rintro m hm ⟨hid, hown⟩
    have hmn : m = n := Store.note_eq_of_id hm hmem hid
    rw [hmn, huser] at hown
    exact hab hown
  have hcast : cast n._id = some n._id := s'.notes_canon n hmem
  have hput : ∀ t : String, t ≠ "" →
      putNote (memEngine cast) s' b n._id (some t) = (⟨404, .error "Note not found"⟩, s') :=
    fun t ht => putNote_absent (falsy_some_of_ne ht) hcast hnone
  have hdel := deleteNote_absent env hvalid hcast hnone
  refine ⟨⟨_, getNotes_mem s' b, ?_⟩, hput, hdel, ?_, hmem, ?_, huser⟩
  · intro hin
    have hin2 := (List.perm_insertionSort newerFirst _).mem_iff.mp hin
    simp only [List.mem_filter, beq_iff_eq] at hin2
    exact hab (huser ▸ hin2.2)
  · intro t ht
    rw [hput t ht, hdel]
  · rw [hn]; rfl

/-- Witness of C1: Alice creates `buyMilk` on the store with Alice and Bob; Bob
can neither list, update nor delete it. -/
theorem note_isolation_witness :
    (∃ l, getNotes (memEngine hexCast)
        (postNote (memEngine hexCast) ⟨note1Id, 10⟩ twoUsers alice (some "buy milk")).2 bob =
          (⟨200, .notes l⟩, (postNote (memEngine hexCast) ⟨note1Id, 10⟩ twoUsers alice (some "buy milk")).2) ∧
        buyMilk ∉ l) ∧
    (∀ t : String, t ≠ "" →
      putNote (memEngine hexCast) (postNote (memEngine hexCast) ⟨note1Id, 10⟩ twoUsers alice (some "buy milk")).2
        bob buyMilk._id (some t) =
        (⟨404, .error "Note not found"⟩,
          (postNote (memEngine hexCast) ⟨note1Id, 10⟩ twoUsers alice (some "buy milk")).2)) ∧
    deleteNote demoEnv (memEngine hexCast)
      (postNote (memEngine hexCast) ⟨note1Id, 10⟩ twoUsers alice (some "buy milk")).2 bob buyMilk._id =
      (⟨404, .error "Note not found"⟩,
        (postNote (memEngine hexCast) ⟨note1Id, 10⟩ twoUsers alice (some "buy milk")).2) ∧
    (∀ t : String, t ≠ "" →
      (deleteNote demoEnv (memEngine hexCast)
        (putNote (memEngine hexCast) (postNote (memEngine hexCast) ⟨note1Id, 10⟩ twoUsers alice (some "buy milk")).2
          bob buyMilk._id (some t)).2 bob buyMilk._id).2 =
        (postNote (memEngine hexCast) ⟨note1Id, 10⟩ twoUsers alice (some "buy milk")).2) ∧
    buyMilk ∈ (postNote (memEngine hexCast) ⟨note1Id, 10⟩ twoUsers alice (some "buy milk")).2.notes ∧
    buyMilk.text = fieldValue (some "buy milk") ∧ buyMilk.user = alice._id :=
  note_isolation demoEnv hexCast twoUsers _ ⟨note1Id, 10⟩ alice bob (some "buy milk") buyMilk
    (by decide) (by decide) rfl

end NotesApp

namespace NotesApp

/-! ## C7: update -/

theorem setText_of_mem {cast : String → Option Id} {s : Store cast} {n m : Note} (t : String) (hn : n ∈ s.notes)
    (hm : m ∈ s.notes) :
    setText n._id t m = if m = n then ⟨n._id, t, n.user, n.createdAt⟩ else m := by
  unfold setText
  by_cases h : m = n
  · subst h; simp
  · have hid : m._id ≠ n._id := fun hid => h (Store.note_eq_of_id hm hn hid)
    simp [h, hid]

/-- C7. Update changes only the text: for a note `n` of the store owned by
`owner` and a non-empty text `t`, the update answers 200 with the note that has
the identifier, owner and creation timestamp of `n` and the text `t`; in the
resulting store that note stands where `n` stood, every other note is unchanged
(the collection is the old one with `n` replaced in place), the number of notes
is unchanged and the user collection is unchanged. -/
theorem update_changes_only_text (cast : String → Option Id) (s : Store cast) (owner : User)
    (n : Note) (t : String)
    (hn : n ∈ s.notes) (hown : n.user = owner._id) (ht : t ≠ "") :
    ∃ s', putNote (memEngine cast) s owner n._id (some t) =
        (⟨200, .note ⟨n._id, t, n.user, n.createdAt⟩⟩, s') ∧
      s'.notes = s.notes.map (fun m => if m = n then ⟨n._id, t, n.user, n.createdAt⟩ else m) ∧
      (⟨n._id, t, n.user, n.createdAt⟩ : Note) ∈ s'.notes ∧
      (∀ m ∈ s'.notes, m._id = n._id → m = ⟨n._id, t, n.user, n.createdAt⟩) ∧
      (∀ m : Note, m._id ≠ n._id → (m ∈ s'.notes ↔ m ∈ s.notes)) ∧
      s'.notes.length = s.notes.length ∧ s'.users = s.users := by
  have hfind : s.notes.find? (ownedBy n._id owner._id) = some n := hown ▸ find_owned hn
  obtain ⟨s', hput, hnotes, husers⟩ :=
    putNote_present (falsy_some_of_ne ht) (s.notes_canon n hn) hfind
  have hmap : s'.notes =
      s.notes.map (fun m => if m = n then ⟨n._id, t, n.user, n.createdAt⟩ else m) := by
    rw [hnotes]
    exact List.map_congr_left (fun m hm => setText_of_mem t hn hm)
  refine ⟨s', hput, hmap, ?_, ?_, ?_, ?_, husers⟩
  · rw [hmap, List.mem_map]
    exact ⟨n, hn, by simp⟩
  · intro m hm hid
    rw [hmap, List.mem_map] at hm
    obtain ⟨x, hx, rfl⟩ := hm
    by_cases hxn : x = n
    · simp [hxn]
    · simp only [hxn, ↓reduceIte] at hid
      exact absurd (Store.note_eq_of_id hx hn hid) hxn
  · intro m hid
    rw [hmap, List.mem_map]
    constructor
    · rintro ⟨x, hx, rfl⟩
      by_cases hxn : x = n
      · simp [hxn] at hid
      · simpa [hxn] using hx
    · intro hm
      have hmn : m ≠ n := fun h => hid (h ▸ rfl)
      exact ⟨m, hm, by simp [hmn]⟩
  · rw [hmap, List.length_map]

/-- Witness of C7: Alice rewrites `buyMilk` in the store holding her two notes. -/
theorem update_changes_only_text_witness :
    ∃ s', putNote (memEngine hexCast) twoNotes alice note1Id (some "buy milk and eggs") =
        (⟨200, .note ⟨note1Id, "buy milk and eggs", aliceId, 10⟩⟩, s') ∧
      s'.notes = [⟨note1Id, "buy milk and eggs", aliceId, 10⟩, callMom] ∧
      s'.users = [alice, bob] := by
  obtain ⟨s', h1, h2, _, _, _, _, h7⟩ :=
    update_changes_only_text hexCast twoNotes alice buyMilk "buy milk and eggs"
      (by decide) (by decide) (by decide)
  exact ⟨s', h1, by rw [h2]; decide, h7⟩

/-! ## C6: delete -/

/-- C6 fails for a malformed identifier: Alice has no note with identifier
`abc`, yet the delete answers 400 `Invalid note ID format`, not 404. -/
theorem delete_malformed_id_counterexample :
    (∀ m ∈ oneNote.notes, ¬ (m._id = "abc" ∧ m.user = alice._id)) ∧
      (deleteNote demoEnv (memEngine hexCast) oneNote alice "abc").1 =
        ⟨400, .error "Invalid note ID format"⟩ ∧
      (deleteNote demoEnv (memEngine hexCast) oneNote alice "abc").1.status ≠ 404 := by
  refine ⟨by decide, by decide, by decide⟩

/-- C6, amended. Delete follows the ownership-scoped existence rule on
well-formed identifiers, read as the ObjectId they cast to, and rejects
malformed ones first:
* a `noteId` that fails `ObjectId.isValid` answers 400
  `Invalid note ID format`, store unchanged;
* a `noteId` that passes the check and casts to the ObjectId `c`, when the
  store holds no note with identifier `c` owned by `owner`, answers 404
  `Note not found`, store unchanged;
* a `noteId` that passes the check and casts to the identifier of a note `n`
  owned by `owner` (any spelling of it) answers 204 with no body, the note
  collection is the old one with exactly `n` removed, the user collection is
  unchanged, and a second delete of the same `noteId` answers 404
  `Note not found` and changes nothing;
* a `noteId` that passes the check but cannot be cast makes the query throw:
  the answer is 500 `Failed to delete note`, store unchanged. -/
theorem delete_ownership_scoped (env : Env) (cast : String → Option Id) (s : Store cast)
    (owner : User) (noteId : String) :
    (env.isValid noteId = false →
      deleteNote env (memEngine cast) s owner noteId =
        (⟨400, .error "Invalid note ID format"⟩, s)) ∧
    (env.isValid noteId = true → ∀ c, cast noteId = some c →
      (∀ m ∈ s.notes, ¬ (m._id = c ∧ m.user = owner._id)) →
      deleteNote env (memEngine cast) s owner noteId =
        (⟨404, .error "Note not found"⟩, s)) ∧
    (env.isValid noteId = true → ∀ c, cast noteId = some c →
      ∀ n ∈ s.notes, n._id = c → n.user = owner._id →
      ∃ s', deleteNote env (memEngine cast) s owner noteId = (⟨204, .empty⟩, s') ∧
        s'.notes = s.notes.erase n ∧
        (∀ m : Note, m ∈ s'.notes ↔ m ∈ s.notes ∧ m ≠ n) ∧
        s'.users = s.users ∧
        deleteNote env (memEngine cast) s' owner noteId =
          (⟨404, .error "Note not found"⟩, s')) ∧
    (env.isValid noteId = true → cast noteId = none →
      deleteNote env (memEngine cast) s owner noteId =
        (⟨500, .errorDetails "Failed to delete note" "Cast to ObjectId failed"⟩, s)) := by
  refine ⟨deleteNote_invalid env (memEngine cast) s owner, ?_, ?_,
    fun hv hc => deleteNote_uncast env hv hc⟩
  · intro hv c hc hnone
    exact deleteNote_absent env hv hc (find_owned_none.mpr hnone)
  · intro hv c hc n hn hid hown
    have hfind : s.notes.find? (ownedBy c owner._id) = some n := by
      rw [← hid, ← hown]; exact find_owned hn
    obtain ⟨s', hdel, hnotes, husers⟩ := deleteNote_present env hv hc hfind
    have hnd : s.notes.Nodup := List.Nodup.of_map _ s.notes_key
    have hfilter : s'.notes = s.notes.filter (fun m => decide (m ≠ n)) := by
      rw [hnotes]
      apply List.filter_congr
      intro m hm
      by_cases hmn : m = n
      · simp [hmn]
      · have : m._id ≠ n._id := fun h => hmn (Store.note_eq_of_id hm hn h)
        simp [hmn, this]
    have hmem : ∀ m : Note, m ∈ s'.notes ↔ m ∈ s.notes ∧ m ≠ n := by
      intro m; rw [hfilter]; simp
    refine ⟨s', hdel, ?_, hmem, husers, ?_⟩
    · rw [hfilter, hnd.erase_eq_filter]
      apply List.filter_congr
      intro m _
      by_cases hmn : m = n <;> simp [hmn]
    · apply deleteNote_absent env hv hc
      rw [find_owned_none]
      rintro m hm ⟨hmid, _⟩
      have hm2 := (hmem m).1 hm
      exact hm2.2 (Store.note_eq_of_id hm2.1 hn (hmid.trans hid.symm))

/-- Witness of C6: on the store with Alice's two notes, a malformed identifier is
refused with 400, Bob's delete of Alice's note answers 404, Alice's delete
of `callMom` leaves exactly `buyMilk`, and so does her delete of `callMom`
named in upper-case hexadecimal digits. -/
theorem delete_ownership_scoped_witness :
    deleteNote demoEnv (memEngine hexCast) twoNotes alice "abc" =
        (⟨400, .error "Invalid note ID format"⟩, twoNotes) ∧
    deleteNote demoEnv (memEngine hexCast) twoNotes bob note2Id =
        (⟨404, .error "Note not found"⟩, twoNotes) ∧
    (∃ s', deleteNote demoEnv (memEngine hexCast) twoNotes alice note2Id =
        (⟨204, .empty⟩, s') ∧
      s'.notes = [buyMilk] ∧
      deleteNote demoEnv (memEngine hexCast) s' alice note2Id =
        (⟨404, .error "Note not found"⟩, s')) ∧
    (∃ s', deleteNote demoEnv (memEngine hexCast) twoNotes alice "0000000000000000000000C2" =
        (⟨204, .empty⟩, s') ∧
      s'.notes = [buyMilk] ∧
      deleteNote demoEnv (memEngine hexCast) s' alice "0000000000000000000000C2" =
        (⟨404, .error "Note not found"⟩, s')) := by
  refine ⟨(delete_ownership_scoped demoEnv hexCast twoNotes alice "abc").1 (by decide),
    (delete_ownership_scoped demoEnv hexCast twoNotes bob note2Id).2.1 (by decide) note2Id
      (by decide) (by decide), ?_, ?_⟩
  · obtain ⟨s', h1, h2, _, _, h5⟩ :=
      (delete_ownership_scoped demoEnv hexCast twoNotes alice note2Id).2.2.1 (by decide)
        note2Id (by decide) callMom (by decide) (by decide) (by decide)
    exact ⟨s', h1, by rw [h2]; decide, h5⟩
  · obtain ⟨s', h1, h2, _, _, h5⟩ :=
      (delete_ownership_scoped demoEnv hexCast twoNotes alice
        "0000000000000000000000C2").2.2.1 (by decide)
        note2Id (by decide) callMom (by decide) (by decide) (by decide)
    exact ⟨s', h1, by rw [h2]; decide, h5⟩

end NotesApp

namespace NotesApp

/-! ## The bearer token -/

theorem replaceFirstChars_at_start (pat rep rest : List Char) (hp : pat ≠ []) :
    replaceFirstChars pat rep (pat ++ rest) = rep ++ rest := by
  cases pat with
  | nil => exact absurd rfl hp
  | cons c cs =>
    have hpre : (c :: cs).isPrefixOf (c :: (cs ++ rest)) = true := by
      rw [List.isPrefixOf_iff_prefix]
      exact List.prefix_append (c :: cs) rest
    show replaceFirstChars (c :: cs) rep (c :: (cs ++ rest)) = rep ++ rest
    unfold replaceFirstChars
    rw [if_pos hpre]
    have hdrop : (c :: (cs ++ rest)).drop (c :: cs).length = rest := by
      simp
    rw [hdrop]

/-- Stripping the scheme from `Bearer <token>` yields the token. -/
theorem stripBearer_bearer (t : String) : stripBearer ("Bearer " ++ t) = t := by
  unfold stripBearer
  rw [String.data_append, replaceFirstChars_at_start _ _ _ (by decide)]
  rfl

/-! ## C4: uniform rejection by the middleware -/

/-- C4. Token verification failure is uniform: when the Authorization header is
absent, or `jwt.verify` rejects the extracted token, or the decoded identifier
matches no user, the middleware answers 401 `Please authenticate`, the same
response in each case, does not call `next`, and each of the four protected
routes returns that response with the store untouched, whatever its handler
would have done. -/
theorem auth_failure_uniform {σ : Type} (env : Env) (eng : Engine σ) (s : σ)
    (header : Option String)
    (h : header = none ∨
      (∃ hd, header = some hd ∧ env.verify (stripBearer hd) = none) ∨
      (∃ hd id, header = some hd ∧ env.verify (stripBearer hd) = some id ∧
        eng.userFindOneById s id = .ok none)) :
    auth env eng s header = .respond ⟨401, .error "Please authenticate"⟩ ∧
    (∀ handler : User → Response × σ,
      protectedRoute env eng s header handler = (⟨401, .error "Please authenticate"⟩, s)) ∧
    apiNotesGet env eng s header = (⟨401, .error "Please authenticate"⟩, s) ∧
    (∀ amb text,
      apiNotesPost env eng amb s header text = (⟨401, .error "Please authenticate"⟩, s)) ∧
    (∀ id text,
      apiNotesPut env eng s header id text = (⟨401, .error "Please authenticate"⟩, s)) ∧
    (∀ id, apiNotesDelete env eng s header id = (⟨401, .error "Please authenticate"⟩, s)) := by
  have hauth : auth env eng s header = .respond ⟨401, .error "Please authenticate"⟩ := by
    rcases h with h | ⟨hd, h, hver⟩ | ⟨hd, id, h, hver, hfind⟩
    · subst h; rfl
    · subst h
      unfold auth
      simp only [hver]
      split <;> rfl
    · subst h
      unfold auth
      simp only [hver, hfind]
      split <;> rfl
  have hroute : ∀ handler : User → Response × σ,
      protectedRoute env eng s header handler = (⟨401, .error "Please authenticate"⟩, s) := by
    intro handler
    unfold protectedRoute
    rw [hauth]
  exact ⟨hauth, hroute, hroute _, fun _ _ => hroute _, fun _ _ => hroute _, fun _ => hroute _⟩

/-- Witness of C4: a request without header, a request whose token was not signed
by the server, and a request whose token names an unknown user, on the store
holding Alice's note. -/
theorem auth_failure_uniform_witness :
    apiNotesGet demoEnv (memEngine hexCast) oneNote none = (⟨401, .error "Please authenticate"⟩, oneNote) ∧
    apiNotesDelete demoEnv (memEngine hexCast) oneNote (some "Bearer forged") note1Id =
      (⟨401, .error "Please authenticate"⟩, oneNote) ∧
    apiNotesPut demoEnv (memEngine hexCast) oneNote (some "Bearer jwt.0000000000000000000000ff") note1Id
      (some "x") = (⟨401, .error "Please authenticate"⟩, oneNote) :=
  ⟨(auth_failure_uniform demoEnv (memEngine hexCast) oneNote none (Or.inl rfl)).2.2.1,
   (auth_failure_uniform demoEnv (memEngine hexCast) oneNote (some "Bearer forged")
      (Or.inr (Or.inl ⟨_, rfl, by decide⟩))).2.2.2.2.2 note1Id,
   (auth_failure_uniform demoEnv (memEngine hexCast) oneNote (some "Bearer jwt.0000000000000000000000ff")
      (Or.inr (Or.inr ⟨_, "0000000000000000000000ff", rfl, by decide, rfl⟩))).2.2.2.2.1
      note1Id (some "x")⟩

/-! ## C2: register, login, verify -/

theorem find_email_none {cast : String → Option Id} {s : Store cast} {email : String}
    (h : ∀ u ∈ s.users, u.email ≠ email) :
    s.users.find? (fun u => u.email == email) = none := by
  rw [List.find?_eq_none]
  intro u hu
  simpa using h u hu

/-- C2. Register, login, verify round trip: for a non-empty email that no stored
user has and a non-empty password, registration answers 201 with the new user
(identifier from the generator, password stored as its hash) and the token
`jwt.sign` makes for that identifier, and adds that user to the store; a login
with the same email and password on the resulting store answers 200 with the
same user and the token signed for the same identifier, leaving the store as
it is; and the middleware given `Bearer ` followed by that token calls `next`
with `req.user` the registered user and `req.token` the token, so that a
protected route runs its handler for that user. Assumed of the libraries: the
hash comparison accepts the password it hashed, `jwt.verify` inverts
`jwt.sign`, tokens are non-empty strings, and the minted ObjectId is not in
use. -/
theorem register_login_verify (env : Env) (cast : String → Option Id) (s : Store cast)
    (amb : Ambient) (email password : String)
    (he : email ≠ "") (hp : password ≠ "")
    (habsent : ∀ u ∈ s.users, u.email ≠ email)
    (hfresh : ∀ u ∈ s.users, u._id ≠ amb.oid)
    (hcmp : ∀ p, env.comparePassword (env.hash p) p = true)
    (hjwt : ∀ id, env.verify (env.sign id) = some id)
    (htok : ∀ id, env.sign id ≠ "") :
    ∃ s',
      register env (memEngine cast) amb s (some email) (some password) =
        (⟨201, .userToken ⟨amb.oid, email, env.hash password⟩ (env.sign amb.oid)⟩, s') ∧
      s'.users = s.users ++ [⟨amb.oid, email, env.hash password⟩] ∧
      s'.notes = s.notes ∧
      login env (memEngine cast) s' (some email) (some password) =
        (⟨200, .userToken ⟨amb.oid, email, env.hash password⟩ (env.sign amb.oid)⟩, s') ∧
      auth env (memEngine cast) s' (some ("Bearer " ++ env.sign amb.oid)) =
        .next ⟨amb.oid, email, env.hash password⟩ (env.sign amb.oid) ∧
      (∀ handler : User → Response × Store cast,
        protectedRoute env (memEngine cast) s' (some ("Bearer " ++ env.sign amb.oid)) handler =
          handler ⟨amb.oid, email, env.hash password⟩) := by
  have hfe : falsy (some email) = false := falsy_some_of_ne he
  have hfp : falsy (some password) = false := falsy_some_of_ne hp
  have hnew : newUser env amb email password = ⟨amb.oid, email, env.hash password⟩ := rfl
  have hid : (newUser env amb email password)._id ∉ s.users.map User._id := by
    intro hmem
    obtain ⟨u, hu, huid⟩ := List.mem_map.mp hmem
    exact hfresh u hu huid
  obtain ⟨s', hsave, husers, hnotes⟩ := userSave_fresh hid
  rw [hnew] at hsave husers
  have hfind1 : (memEngine cast).userFindOneByEmail s email = .ok none := by
    rw [userFindOneByEmail_mem, find_email_none habsent]
  have hfind2 : (memEngine cast).userFindOneByEmail s' email =
      .ok (some ⟨amb.oid, email, env.hash password⟩) := by
    rw [userFindOneByEmail_mem, husers, List.find?_append, find_email_none habsent]
    simp
  have hfind3 : (memEngine cast).userFindOneById s' amb.oid =
      .ok (some ⟨amb.oid, email, env.hash password⟩) := by
    have hnone : s.users.find? (fun u => u._id == amb.oid) = none := by
      rw [List.find?_eq_none]
      intro u hu
      simpa using hfresh u hu
    rw [userFindOneById_mem, husers, List.find?_append, hnone]
    simp
  have hauth : auth env (memEngine cast) s' (some ("Bearer " ++ env.sign amb.oid)) =
      .next ⟨amb.oid, email, env.hash password⟩ (env.sign amb.oid) := by
    unfold auth
    simp only [stripBearer_bearer, hjwt, hfind3]
    have hne : (env.sign amb.oid == "") = false := by simpa using htok amb.oid
    simp [hne]
  refine ⟨s', ?_, husers, hnotes, ?_, hauth, ?_⟩
  · unfold register
    simp only [hfe, hfp, Bool.or_self, Bool.false_eq_true, ↓reduceIte, fieldValue]
    rw [hfind1]
    simp only [hnew, hsave]
  · unfold login
    simp only [hfe, hfp, Bool.or_self, Bool.false_eq_true, ↓reduceIte, fieldValue]
    rw [hfind2]
    simp only [hcmp, Bool.not_true, Bool.false_eq_true, ↓reduceIte]
  · intro handler
    unfold protectedRoute
    rw [hauth]

end NotesApp

namespace NotesApp

/-! ## The concrete environment satisfies the library assumptions -/

theorem demoEnv_compare (p : String) : demoEnv.comparePassword (demoEnv.hash p) p = true := by
  simp [demoEnv]

theorem demoEnv_verify_sign (id : Id) : demoEnv.verify (demoEnv.sign id) = some id := by
  have hpre : "jwt.".data.isPrefixOf ("jwt." ++ id).data = true := by
    rw [String.data_append, List.isPrefixOf_iff_prefix]
    exact List.prefix_append _ _
  have hdrop : ("jwt." ++ id).data.drop 4 = id.data := by
    rw [String.data_append]
    rfl
  show (if "jwt.".data.isPrefixOf ("jwt." ++ id).data then
      some (String.mk (("jwt." ++ id).data.drop 4)) else none) = some id
  rw [if_pos hpre, hdrop]

theorem demoEnv_sign_ne (id : Id) : demoEnv.sign id ≠ "" := by
  intro h
  have hlen : (demoEnv.sign id).length = 0 := by rw [h]; rfl
  have : (demoEnv.sign id).length = 4 + id.length := by
    show ("jwt." ++ id).length = _
    rw [String.length_append]
    rfl
  omega

/-- Witness of C2: Alice registers on the empty store, logs in, and her token is
accepted by the middleware. -/
theorem register_login_verify_witness :
    ∃ s',
      register demoEnv (memEngine hexCast) ⟨aliceId, 0⟩ (emptyStore hexCast) (some "a@x.com")
          (some "secret") =
        (⟨201, .userToken ⟨aliceId, "a@x.com", "h:secret"⟩ "jwt.0000000000000000000000a1"⟩,
          s') ∧
      s'.users = [⟨aliceId, "a@x.com", "h:secret"⟩] ∧
      s'.notes = [] ∧
      login demoEnv (memEngine hexCast) s' (some "a@x.com") (some "secret") =
        (⟨200, .userToken ⟨aliceId, "a@x.com", "h:secret"⟩ "jwt.0000000000000000000000a1"⟩,
          s') ∧
      auth demoEnv (memEngine hexCast) s' (some "Bearer jwt.0000000000000000000000a1") =
        .next ⟨aliceId, "a@x.com", "h:secret"⟩ "jwt.0000000000000000000000a1" ∧
      (∀ handler : User → Response × Store hexCast,
        protectedRoute demoEnv (memEngine hexCast) s'
          (some "Bearer jwt.0000000000000000000000a1") handler =
          handler ⟨aliceId, "a@x.com", "h:secret"⟩) :=
  register_login_verify demoEnv hexCast (emptyStore hexCast) ⟨aliceId, 0⟩ "a@x.com" "secret"
    (by decide) (by decide) (fun _ hu => nomatch hu) (fun _ hu => nomatch hu)
    demoEnv_compare demoEnv_verify_sign demoEnv_sign_ne

/-! ## C3: login failures -/

/-- C3 fails for the empty email: it is absent from the store, yet a login naming
it with a non-empty password answers 400 `Email and password are required`,
while a login naming Alice's email with a wrong password answers 401. -/
theorem login_empty_email_counterexample :
    (∀ u ∈ twoUsers.users, u.email ≠ "") ∧
    (login demoEnv (memEngine hexCast) twoUsers (some "") (some "guess")).1 =
      ⟨400, .error "Email and password are required"⟩ ∧
    (login demoEnv (memEngine hexCast) twoUsers (some "a@x.com") (some "guess")).1 =
      ⟨401, .error "Invalid login credentials"⟩ ∧
    (login demoEnv (memEngine hexCast) twoUsers (some "") (some "guess")).1 ≠
      (login demoEnv (memEngine hexCast) twoUsers (some "a@x.com") (some "guess")).1 := by
  refine ⟨by decide, by decide, by decide, by decide⟩

/-- C3, amended. Login failure is indistinguishable for non-empty emails: for
every store, every two non-empty passwords and every two non-empty emails of
which the first is not stored and the second is stored with a hash that the
comparison rejects for the password sent, both logins answer 401
`Invalid login credentials`, the two responses are equal, and neither changes
the store. A login whose email or password is missing or empty is answered by
the input check with 400 `Email and password are required`, whatever the
store holds, and does not change the store. -/
theorem login_failure_indistinguishable (env : Env) (cast : String → Option Id)
    (s : Store cast) (e1 e2 p1 p2 : String)
    (he1 : e1 ≠ "") (he2 : e2 ≠ "") (hp1 : p1 ≠ "") (hp2 : p2 ≠ "")
    (habsent : ∀ u ∈ s.users, u.email ≠ e1)
    (_hstored : ∃ u ∈ s.users, u.email = e2)
    (hreject : ∀ u ∈ s.users, u.email = e2 → env.comparePassword u.password p2 = false) :
    login env (memEngine cast) s (some e1) (some p1) =
      (⟨401, .error "Invalid login credentials"⟩, s) ∧
    login env (memEngine cast) s (some e2) (some p2) =
      (⟨401, .error "Invalid login credentials"⟩, s) ∧
    (login env (memEngine cast) s (some e1) (some p1)).1 =
      (login env (memEngine cast) s (some e2) (some p2)).1 ∧
    (∀ password : Option String,
      login env (memEngine cast) s (some "") password =
        (⟨400, .error "Email and password are required"⟩, s) ∧
      login env (memEngine cast) s none password =
        (⟨400, .error "Email and password are required"⟩, s)) ∧
    (∀ email : Option String,
      login env (memEngine cast) s email (some "") =
        (⟨400, .error "Email and password are required"⟩, s) ∧
      login env (memEngine cast) s email none =
        (⟨400, .error "Email and password are required"⟩, s)) := by
  have h1 : login env (memEngine cast) s (some e1) (some p1) =
      (⟨401, .error "Invalid login credentials"⟩, s) := by
    have hfind : (memEngine cast).userFindOneByEmail s e1 = .ok none := by
      rw [userFindOneByEmail_mem, find_email_none habsent]
    unfold login
    simp only [falsy_some_of_ne he1, falsy_some_of_ne hp1, Bool.or_self, Bool.false_eq_true,
      ↓reduceIte, fieldValue]
    rw [hfind]
  have h2 : login env (memEngine cast) s (some e2) (some p2) =
      (⟨401, .error "Invalid login credentials"⟩, s) := by
    unfold login
    simp only [falsy_some_of_ne he2, falsy_some_of_ne hp2, Bool.or_self, Bool.false_eq_true,
      ↓reduceIte, fieldValue]
    rw [userFindOneByEmail_mem]
    cases hfind : s.users.find? (fun u => u.email == e2) with
    | none => rfl
    | some u =>
      have hu := List.mem_of_find?_eq_some hfind
      have hue : u.email = e2 := by simpa using List.find?_some hfind
      simp only [hreject u hu hue, Bool.not_false, ↓reduceIte]
  refine ⟨h1, h2, by rw [h1, h2], ?_, ?_⟩
  · intro password
    constructor <;> (unfold login; simp [falsy])
  · intro email
    constructor <;> (unfold login; simp [falsy])

/-- Witness of C3: an unknown email and Alice's email with a wrong password, and
the empty email. -/
theorem login_failure_indistinguishable_witness :
    login demoEnv (memEngine hexCast) twoUsers (some "nobody@x.com") (some "guess") =
      (⟨401, .error "Invalid login credentials"⟩, twoUsers) ∧
    login demoEnv (memEngine hexCast) twoUsers (some "a@x.com") (some "guess") =
      (⟨401, .error "Invalid login credentials"⟩, twoUsers) ∧
    login demoEnv (memEngine hexCast) twoUsers (some "") (some "guess") =
      (⟨400, .error "Email and password are required"⟩, twoUsers) :=
  have h := login_failure_indistinguishable demoEnv hexCast twoUsers "nobody@x.com" "a@x.com"
    "guess" "guess" (by decide) (by decide) (by decide) (by decide) (by decide) (by decide)
    (by decide)
  ⟨h.1, h.2.1, (h.2.2.2.1 (some "guess")).1⟩

end NotesApp

namespace NotesApp

/-! ## C5: duplicate registration -/

/-- A registration either leaves the user collection as it was or appends one
user whose email no stored user has. -/
theorem register_users {cast : String → Option Id} (env : Env) (amb : Ambient) (s : Store cast)
    (email password : Option String) :
    (register env (memEngine cast) amb s email password).2 = s ∨
    ∃ u : User, (∀ v ∈ s.users, v.email ≠ u.email) ∧
      (register env (memEngine cast) amb s email password).2.users = s.users ++ [u] := by
  unfold register
  by_cases hf : (falsy email || falsy password) = true
  · left; simp only [hf, ↓reduceIte]
  · simp only [hf, Bool.false_eq_true, ↓reduceIte]
    rw [userFindOneByEmail_mem]
    cases hfind : s.users.find? (fun u => u.email == fieldValue email) with
    | some u => left; rfl
    | none =>
      simp only []
      by_cases hid : (newUser env amb (fieldValue email) (fieldValue password))._id ∈
          s.users.map User._id
      · left; rw [userSave_dup hid]
      · right
        obtain ⟨s', hsave, husers, _⟩ := userSave_fresh hid
        rw [hsave]
        refine ⟨_, ?_, husers⟩
        rw [List.find?_eq_none] at hfind
        intro v hv
        simpa [newUser] using hfind v hv

theorem login_store {σ : Type} (env : Env) (eng : Engine σ) (s : σ)
    (email password : Option String) : (login env eng s email password).2 = s := by
  unfold login
  split
  · rfl
  · split
    · rfl
    · rfl
    · split <;> rfl

theorem postNote_users {cast : String → Option Id} (amb : Ambient) (s : Store cast) (u : User)
    (text : Option String) :
    (postNote (memEngine cast) amb s u text).2.users = s.users := by
  unfold postNote
  by_cases hf : falsy text = true
  · simp only [hf, ↓reduceIte]
  · simp only [hf, Bool.false_eq_true, ↓reduceIte]
    by_cases hc : cast (newNote amb (fieldValue text) u._id)._id =
        some (newNote amb (fieldValue text) u._id)._id
    · by_cases hid : (newNote amb (fieldValue text) u._id)._id ∈ s.notes.map Note._id
      · rw [noteSave_dup hc hid]
      · obtain ⟨s', hsave, _, husers⟩ := noteSave_fresh hc hid
        rw [hsave]
        exact husers
    · rw [noteSave_uncast hc]

theorem putNote_users {cast : String → Option Id} (s : Store cast) (u : User) (id : String)
    (text : Option String) :
    (putNote (memEngine cast) s u id text).2.users = s.users := by
  unfold putNote
  by_cases hf : falsy text = true
  · simp only [hf, ↓reduceIte]
  · simp only [hf, Bool.false_eq_true, ↓reduceIte]
    cases hc : cast id with
    | none => rw [update_uncast hc]
    | some c =>
      cases hfind : s.notes.find? (ownedBy c u._id) with
      | none => rw [update_none hc hfind]
      | some m =>
        obtain ⟨s', hupd, _, husers⟩ := update_some (fieldValue text) hc hfind
        rw [hupd]
        exact husers

theorem deleteNote_users {cast : String → Option Id} (env : Env) (s : Store cast) (u : User)
    (id : String) :
    (deleteNote env (memEngine cast) s u id).2.users = s.users := by
  cases hv : env.isValid id with
  | false => rw [deleteNote_invalid env (memEngine cast) s u hv]
  | true =>
    cases hc : cast id with
    | none => rw [deleteNote_uncast env hv hc]
    | some c =>
      cases hfind : s.notes.find? (ownedBy c u._id) with
      | none => rw [deleteNote_absent env hv hc hfind]
      | some m =>
        obtain ⟨s', hdel, _, husers⟩ := deleteNote_present env hv hc hfind
        rw [hdel]
        exact husers

theorem protectedRoute_users {cast : String → Option Id} (env : Env) (s : Store cast)
    (header : Option String) (handler : User → Response × Store cast) (h : ∀ u, (handler u).2.users = s.users) :
    (protectedRoute env (memEngine cast) s header handler).2.users = s.users := by
  unfold protectedRoute
  split
  · rfl
  · exact h _

/-- Serving a request keeps the emails of the user collection pairwise distinct. -/
theorem step_emails_nodup {env : Env} {cast : String → Option Id} {s s' : Store cast}
    (hstep : Step env cast s s')
    (h : (s.users.map User.email).Nodup) : (s'.users.map User.email).Nodup := by
  cases hstep with
  | register amb s email password =>
    rcases register_users env amb s email password with heq | ⟨u, hnew, husers⟩
    · rw [heq]; exact h
    · rw [husers, List.map_append, List.nodup_append]
      refine ⟨h, List.nodup_singleton _, ?_⟩
      intro x hx hx2
      simp only [List.map_cons, List.map_nil, List.mem_singleton] at hx2
      obtain ⟨v, hv, hve⟩ := List.mem_map.mp hx
      exact hnew v hv (hve.trans hx2)
  | login s email password => rw [login_store]; exact h
  | list s header =>
    unfold apiNotesGet
    rw [protectedRoute_users env s header _ (fun _ => rfl)]; exact h
  | create amb s header text =>
    unfold apiNotesPost
    rw [protectedRoute_users env s header _ (fun u => postNote_users amb s u text)]; exact h
  | update s header id text =>
    unfold apiNotesPut
    rw [protectedRoute_users env s header _ (fun u => putNote_users s u id text)]; exact h
  | delete s header id =>
    unfold apiNotesDelete
    rw [protectedRoute_users env s header _ (fun u => deleteNote_users env s u id)]; exact h

/-- C5 fails when the password is empty: Alice's email is registered, and the
request naming it with an empty password is answered with the validation error
`Email and password are required`, not with `Email already registered`. -/
theorem register_duplicate_empty_password_counterexample :
    (∃ u ∈ twoUsers.users, u.email = "a@x.com") ∧
    (register demoEnv (memEngine hexCast) ⟨note1Id, 0⟩ twoUsers (some "a@x.com")
      (some "")).1 = ⟨400, .error "Email and password are required"⟩ ∧
    (register demoEnv (memEngine hexCast) ⟨note1Id, 0⟩ twoUsers (some "a@x.com")
      (some "")).1 ≠ ⟨400, .error "Email already registered"⟩ := by
  refine ⟨by decide, by decide, by decide⟩

/-- C5, amended. Duplicate registration is rejected atomically: for every store
and every registration whose non-empty email is the email of a stored user,
the response has status 400 and carries no token, and the store after the
request is the store before it; when the password is non-empty too the body is
the error `Email already registered`, and when the password is missing or
empty the body is the validation error `Email and password are required`.
Consequently in every store reachable from the empty store by serving
requests no two users share an email. -/
theorem duplicate_registration_rejected (env : Env) (cast : String → Option Id) :
    (∀ (s : Store cast) (amb : Ambient) (email : String) (password : Option String),
      email ≠ "" → (∃ u ∈ s.users, u.email = email) →
        (register env (memEngine cast) amb s (some email) password).1.status = 400 ∧
        (register env (memEngine cast) amb s (some email) password).1.body.tokenField = none ∧
        (register env (memEngine cast) amb s (some email) password).2 = s ∧
        (falsy password = false →
          register env (memEngine cast) amb s (some email) password =
            (⟨400, .error "Email already registered"⟩, s)) ∧
        (falsy password = true →
          register env (memEngine cast) amb s (some email) password =
            (⟨400, .error "Email and password are required"⟩, s))) ∧
    (∀ s : Store cast, Reachable env cast s → (s.users.map User.email).Nodup) := by
  constructor
  · intro s amb email password he hex
    have hdup : falsy password = false →
        register env (memEngine cast) amb s (some email) password =
          (⟨400, .error "Email already registered"⟩, s) := by
      intro hp
      obtain ⟨u, hu, hue⟩ := hex
      unfold register
      simp only [falsy_some_of_ne he, hp, Bool.or_self, Bool.false_eq_true, ↓reduceIte,
        fieldValue]
      rw [userFindOneByEmail_mem]
      cases hfind : s.users.find? (fun v => v.email == email) with
      | some v => rfl
      | none =>
        rw [List.find?_eq_none] at hfind
        exact absurd (by simpa using hue) (hfind u hu)
    have hreq : falsy password = true →
        register env (memEngine cast) amb s (some email) password =
          (⟨400, .error "Email and password are required"⟩, s) := by
      intro hp
      unfold register
      simp [hp]
    cases hp : falsy password with
    | false =>
      rw [hdup hp]
      exact ⟨rfl, rfl, rfl, fun _ => rfl, fun h => absurd h (by decide)⟩
    | true =>
      rw [hreq hp]
      exact ⟨rfl, rfl, rfl, fun h => absurd h (by decide), fun _ => rfl⟩
  · intro s hreach
    induction hreach with
    | init => exact List.nodup_nil
    | step _ hstep ih => exact step_emails_nodup hstep ih

/-- Witness of C5: a second registration of Alice's email is refused, with or
without a password, and the store reached by registering Alice has distinct
emails. -/
theorem duplicate_registration_rejected_witness :
    register demoEnv (memEngine hexCast) ⟨note1Id, 0⟩ twoUsers (some "a@x.com")
        (some "other") = (⟨400, .error "Email already registered"⟩, twoUsers) ∧
    register demoEnv (memEngine hexCast) ⟨note1Id, 0⟩ twoUsers (some "a@x.com") none =
      (⟨400, .error "Email and password are required"⟩, twoUsers) ∧
    ((register demoEnv (memEngine hexCast) ⟨aliceId, 0⟩ (emptyStore hexCast) (some "a@x.com")
      (some "secret")).2.users.map User.email).Nodup :=
  ⟨((duplicate_registration_rejected demoEnv hexCast).1 twoUsers ⟨note1Id, 0⟩ "a@x.com"
      (some "other") (by decide) (by decide)).2.2.2.1 (by decide),
   ((duplicate_registration_rejected demoEnv hexCast).1 twoUsers ⟨note1Id, 0⟩ "a@x.com" none
      (by decide) (by decide)).2.2.2.2 (by decide),
   (duplicate_registration_rejected demoEnv hexCast).2 _
      (Reachable.step Reachable.init (Step.register ⟨aliceId, 0⟩ (emptyStore hexCast)
        (some "a@x.com") (some "secret")))⟩

end NotesApp

namespace NotesApp

/-! ## C8: create with blank text -/

/-- C8 at the failing input: Alice posts a note whose text is three spaces. The
handler answers 201 and the store gains the note, where the claim asks for a
400 and no new record; when the engine refuses the save the handler answers
500, still not 400; a missing text and the empty text are refused with 400
and add nothing. -/
theorem create_accepts_blank_text :
    (postNote downEngine ⟨note1Id, 10⟩ () alice (some "   ")).1.status = 500 ∧
    (postNote (memEngine hexCast) ⟨note1Id, 10⟩ twoUsers alice (some "   ")).1 =
      ⟨201, .note ⟨note1Id, "   ", aliceId, 10⟩⟩ ∧
    (postNote (memEngine hexCast) ⟨note1Id, 10⟩ twoUsers alice (some "   ")).2.notes =
      [⟨note1Id, "   ", aliceId, 10⟩] ∧
    twoUsers.notes = [] ∧
    (postNote (memEngine hexCast) ⟨note1Id, 10⟩ twoUsers alice (some "")).1 =
      ⟨400, .error "Note text is required"⟩ ∧
    (postNote (memEngine hexCast) ⟨note1Id, 10⟩ twoUsers alice (some "")).2.notes = [] ∧
    (postNote (memEngine hexCast) ⟨note1Id, 10⟩ twoUsers alice none).1 =
      ⟨400, .error "Note text is required"⟩ ∧
    (postNote (memEngine hexCast) ⟨note1Id, 10⟩ twoUsers alice none).2.notes = [] := by
  refine ⟨by decide, by decide, by decide, by decide, by decide, by decide, by decide,
    by decide⟩

/-! ## C9: list -/

/-- Sorting a list extended at its end by an element strictly newer than all
the others puts that element first. -/
theorem insertionSort_snoc_newest (l : List Note) (n : Note)
    (h : ∀ m ∈ l, m.createdAt < n.createdAt) :
    (l ++ [n]).insertionSort newerFirst = n :: l.insertionSort newerFirst := by
  induction l with
  | nil => rfl
  | cons a l ih =>
    have hl : ∀ m ∈ l, m.createdAt < n.createdAt := fun m hm => h m (List.mem_cons_of_mem a hm)
    have ha : ¬ newerFirst a n := by
      have := h a (List.mem_cons_self a l)
      unfold newerFirst
      omega
    show List.orderedInsert newerFirst a ((l ++ [n]).insertionSort newerFirst) = _
    rw [ih hl, List.orderedInsert, if_neg ha]
    rfl

/-- C9 fails when the clock has not advanced: Alice has `buyMilk`, created at
time 10, and creates `call mom` at clock reading 5 (first part) or 10 (second
part); the create answers 201, and her list then starts with `buyMilk`, not
with the note just created. -/
theorem list_stale_clock_counterexample :
    ((postNote (memEngine hexCast) ⟨note2Id, 5⟩ oneNote alice (some "call mom")).1 =
        ⟨201, .note ⟨note2Id, "call mom", aliceId, 5⟩⟩ ∧
      (getNotes (memEngine hexCast) (postNote (memEngine hexCast) ⟨note2Id, 5⟩ oneNote alice (some "call mom")).2
        alice).1 = ⟨200, .notes [buyMilk, ⟨note2Id, "call mom", aliceId, 5⟩]⟩) ∧
    ((postNote (memEngine hexCast) ⟨note2Id, 10⟩ oneNote alice (some "call mom")).1 =
        ⟨201, .note ⟨note2Id, "call mom", aliceId, 10⟩⟩ ∧
      (getNotes (memEngine hexCast) (postNote (memEngine hexCast) ⟨note2Id, 10⟩ oneNote alice (some "call mom")).2
        alice).1 = ⟨200, .notes [buyMilk, ⟨note2Id, "call mom", aliceId, 10⟩]⟩) := by
  refine ⟨⟨by decide, by decide⟩, ⟨by decide, by decide⟩⟩

/-- C9, amended. List returns the owner's notes newest first: for every store
and owner the list answers 200 with a sequence that is a rearrangement of the
notes of the store owned by `owner` (each once), ordered by creation timestamp
from newest to oldest, and empty when the owner has no notes. After a
successful create of `n` by `owner` whose timestamp is strictly later than
those of the notes `owner` already has, the list is `n` followed by the former
list. For an owner without notes, creating N1 and then N2 with a strictly
later timestamp makes the list `[N2, N1]`. -/
theorem list_newest_first (cast : String → Option Id) (s : Store cast) (owner : User) :
    ∃ l, getNotes (memEngine cast) s owner = (⟨200, .notes l⟩, s) ∧
      l.Perm (s.notes.filter (fun n => n.user == owner._id)) ∧
      l.Nodup ∧
      (∀ n : Note, n ∈ l ↔ n ∈ s.notes ∧ n.user = owner._id) ∧
      l.Pairwise (fun a b => b.createdAt ≤ a.createdAt) ∧
      ((∀ n ∈ s.notes, n.user ≠ owner._id) → l = []) ∧
      (∀ (amb : Ambient) (text : Option String) (s' : Store cast) (n : Note),
        postNote (memEngine cast) amb s owner text = (⟨201, .note n⟩, s') →
        (∀ m ∈ s.notes, m.user = owner._id → m.createdAt < n.createdAt) →
        getNotes (memEngine cast) s' owner = (⟨200, .notes (n :: l)⟩, s')) ∧
      (∀ (amb1 amb2 : Ambient) (t1 t2 : Option String) (s1 s2 : Store cast) (n1 n2 : Note),
        (∀ m ∈ s.notes, m.user ≠ owner._id) →
        postNote (memEngine cast) amb1 s owner t1 = (⟨201, .note n1⟩, s1) →
        postNote (memEngine cast) amb2 s1 owner t2 = (⟨201, .note n2⟩, s2) →
        n1.createdAt < n2.createdAt →
        getNotes (memEngine cast) s2 owner = (⟨200, .notes [n2, n1]⟩, s2)) := by
  have hperm := List.perm_insertionSort newerFirst (s.notes.filter (fun n => n.user == owner._id))
  have hnd : (s.notes.filter (fun n => n.user == owner._id)).Nodup :=
    (List.Nodup.of_map _ s.notes_key).filter _
  have hstep : ∀ (t : Store cast) (amb : Ambient) (text : Option String) (t' : Store cast) (n : Note),
      postNote (memEngine cast) amb t owner text = (⟨201, .note n⟩, t') →
      (∀ m ∈ t.notes, m.user = owner._id → m.createdAt < n.createdAt) →
      getNotes (memEngine cast) t' owner =
        (⟨200, .notes (n :: (t.notes.filter (fun n => n.user == owner._id)).insertionSort
          newerFirst)⟩, t') := by
    intro t amb text t' n hpost hnew
    obtain ⟨_, hn, _, hnotes, _⟩ := postNote_created hpost
    have hown : (n.user == owner._id) = true := by rw [hn]; simp [newNote]
    rw [getNotes_mem, hnotes, List.filter_append]
    simp only [List.filter_cons, List.filter_nil, hown, ↓reduceIte]
    rw [insertionSort_snoc_newest]
    intro m hm
    rw [List.mem_filter] at hm
    exact hnew m hm.1 (by simpa using hm.2)
  refine ⟨_, getNotes_mem s owner, hperm, hperm.nodup_iff.mpr hnd, ?_,
    List.sorted_insertionSort newerFirst _, ?_, hstep s, ?_⟩
  · intro n
    rw [hperm.mem_iff, List.mem_filter]
    simp
  · intro hnone
    have hfil : s.notes.filter (fun n => n.user == owner._id) = [] := by
      rw [List.filter_eq_nil_iff]
      intro n hn
      simpa using hnone n hn
    rw [hfil]
    rfl
  · intro amb1 amb2 t1 t2 s1 s2 n1 n2 hnone h1 h2 hlt
    obtain ⟨_, hn1, _, hnotes1, _⟩ := postNote_created h1
    have hown1 : (n1.user == owner._id) = true := by rw [hn1]; simp [newNote]
    have hfil : s.notes.filter (fun n => n.user == owner._id) = [] := by
      rw [List.filter_eq_nil_iff]
      intro n hn
      simpa using hnone n hn
    have hfil1 : s1.notes.filter (fun n => n.user == owner._id) = [n1] := by
      rw [hnotes1, List.filter_append, hfil]
      simp [hown1]
    have hlist := hstep s1 amb2 t2 s2 n2 h2 (by
      intro m hm hmo
      have hm1 : m ∈ s1.notes.filter (fun n => n.user == owner._id) :=
        List.mem_filter.mpr ⟨hm, by simpa using hmo⟩
      rw [hfil1, List.mem_singleton] at hm1
      rw [hm1]
      exact hlt)
    rw [hlist, hfil1]
    rfl

/-- Witness of C9: Alice's list on the store with her two notes is `callMom`
(created at 20) before `buyMilk` (created at 10); Bob's list is empty; and
after Alice creates a note at time 30 her list starts with it. -/
theorem list_newest_first_witness :
    getNotes (memEngine hexCast) twoNotes alice = (⟨200, .notes [callMom, buyMilk]⟩, twoNotes) ∧
    getNotes (memEngine hexCast) twoNotes bob = (⟨200, .notes []⟩, twoNotes) ∧
    (getNotes (memEngine hexCast)
      (postNote (memEngine hexCast) ⟨"0000000000000000000000c3", 30⟩ twoNotes alice (some "pay rent")).2
      alice).1 =
      ⟨200, .notes [⟨"0000000000000000000000c3", "pay rent", aliceId, 30⟩, callMom, buyMilk]⟩ := by
  obtain ⟨l, hget, _, _, hmem, _, hnone, hcreate, _⟩ := list_newest_first hexCast twoNotes alice
  obtain ⟨lb, hgetb, _, _, _, _, hnoneb, _, _⟩ := list_newest_first hexCast twoNotes bob
  have hl : l = [callMom, buyMilk] := by
    have := hget
    rw [getNotes_mem] at this
    simp only [Prod.mk.injEq, Response.mk.injEq, Body.notes.injEq, true_and, and_true] at this
    rw [← this]
    decide
  have hlb : lb = [] := hnoneb (by decide)
  refine ⟨hl ▸ hget, hlb ▸ hgetb, ?_⟩
  have h := hcreate ⟨"0000000000000000000000c3", 30⟩ (some "pay rent")
    (postNote (memEngine hexCast) ⟨"0000000000000000000000c3", 30⟩ twoNotes alice (some "pay rent")).2
    ⟨"0000000000000000000000c3", "pay rent", aliceId, 30⟩ rfl (by decide)
  rw [h, hl]

end NotesApp

namespace NotesApp

/-! ## C10: statuses of error responses -/

theorem auth_cases {σ : Type} (env : Env) (eng : Engine σ) (s : σ) (header : Option String) :
    auth env eng s header = .respond pleaseAuthenticate ∨
      ∃ u t, auth env eng s header = .next u t := by
  unfold auth
  cases header with
  | none => left; rfl
  | some h =>
    simp only
    split
    · left; rfl
    · cases env.verify (stripBearer h) with
      | none => left; rfl
      | some id =>
        simp only
        rcases eng.userFindOneById s id with msg | (_ | u)
        · left; rfl
        · left; rfl
        · right; exact ⟨u, _, rfl⟩

/-- The middleware rejects exactly when the header is absent, the token is
empty, `jwt.verify` throws, the user lookup finds nobody, or the user lookup
throws. -/
theorem auth_respond_iff {σ : Type} (env : Env) (eng : Engine σ) (s : σ)
    (header : Option String) :
    auth env eng s header = .respond ⟨401, .error "Please authenticate"⟩ ↔
      header = none ∨
      ∃ hd, header = some hd ∧
        (stripBearer hd = "" ∨ env.verify (stripBearer hd) = none ∨
          ∃ id, env.verify (stripBearer hd) = some id ∧
            (eng.userFindOneById s id = .ok none ∨
              ∃ msg, eng.userFindOneById s id = .error msg)) := by
  unfold auth
  cases header with
  | none => simp [pleaseAuthenticate]
  | some h =>
    simp only [Option.some.injEq, exists_eq_left', false_or, reduceCtorEq]
    by_cases ht : stripBearer h = ""
    · simp [ht, pleaseAuthenticate]
    · have hb : (stripBearer h == "") = false := by simpa using ht
      simp only [hb, Bool.false_eq_true, ↓reduceIte, ht, false_or]
      cases hv : env.verify (stripBearer h) with
      | none => simp [pleaseAuthenticate]
      | some id =>
        simp only [reduceCtorEq, Option.some.injEq, exists_eq_left', false_or]
        rcases hf : eng.userFindOneById s id with msg | (_ | u) <;> simp [pleaseAuthenticate]

theorem getNotes_status {σ : Type} (eng : Engine σ) (s : σ) (u : User) :
    ((getNotes eng s u).1.status = 500 ↔ ∃ msg, eng.noteFindSorted s u._id = .error msg) ∧
    (∀ msg, eng.noteFindSorted s u._id = .error msg →
      getNotes eng s u = (⟨500, .errorDetails "Failed to fetch notes" msg⟩, s)) ∧
    ((getNotes eng s u).1.status = 200 ∨ (getNotes eng s u).1.status = 500) ∧
    (getNotes eng s u).1.status ≠ 401 := by
  unfold getNotes
  rcases h : eng.noteFindSorted s u._id with msg | l <;> simp

theorem postNote_status {σ : Type} (eng : Engine σ) (amb : Ambient) (s : σ) (u : User)
    (text : Option String) :
    ((postNote eng amb s u text).1.status = 400 ↔ falsy text = true) ∧
    ((postNote eng amb s u text).1.status = 500 ↔ falsy text = false ∧
      ∃ msg, eng.noteSave s (newNote amb (fieldValue text) u._id) = .error msg) ∧
    (∀ msg, falsy text = false →
      eng.noteSave s (newNote amb (fieldValue text) u._id) = .error msg →
      postNote eng amb s u text = (⟨500, .errorDetails "Failed to create note" msg⟩, s)) ∧
    (falsy text = true →
      postNote eng amb s u text = (⟨400, .error "Note text is required"⟩, s)) ∧
    ((postNote eng amb s u text).1.status = 201 ∨ (postNote eng amb s u text).1.status = 400 ∨
      (postNote eng amb s u text).1.status = 500) ∧
    (postNote eng amb s u text).1.status ≠ 401 := by
  unfold postNote
  cases hf : falsy text
  · rcases h : eng.noteSave s (newNote amb (fieldValue text) u._id) with msg | ⟨s', n⟩ <;> simp
  · simp

theorem putNote_status {σ : Type} (eng : Engine σ) (s : σ) (u : User) (id : String)
    (text : Option String) :
    ((putNote eng s u id text).1.status = 400 ↔ falsy text = true) ∧
    ((putNote eng s u id text).1.status = 404 ↔ falsy text = false ∧
      ∃ s', eng.noteFindOneAndUpdate s id u._id (fieldValue text) = .ok (s', none)) ∧
    ((putNote eng s u id text).1.status = 500 ↔ falsy text = false ∧
      ∃ msg, eng.noteFindOneAndUpdate s id u._id (fieldValue text) = .error msg) ∧
    (∀ msg, falsy text = false →
      eng.noteFindOneAndUpdate s id u._id (fieldValue text) = .error msg →
      putNote eng s u id text = (⟨500, .errorDetails "Failed to update note" msg⟩, s)) ∧
    (falsy text = true →
      putNote eng s u id text = (⟨400, .error "Note text is required"⟩, s)) ∧
    (∀ s', falsy text = false →
      eng.noteFindOneAndUpdate s id u._id (fieldValue text) = .ok (s', none) →
      putNote eng s u id text = (⟨404, .error "Note not found"⟩, s')) ∧
    ((putNote eng s u id text).1.status = 200 ∨ (putNote eng s u id text).1.status = 400 ∨
      (putNote eng s u id text).1.status = 404 ∨ (putNote eng s u id text).1.status = 500) ∧
    (putNote eng s u id text).1.status ≠ 401 := by
  unfold putNote
  cases hf : falsy text
  · rcases h : eng.noteFindOneAndUpdate s id u._id (fieldValue text) with msg | ⟨s', _ | n⟩ <;>
      simp
  · simp

theorem deleteNote_status {σ : Type} (env : Env) (eng : Engine σ) (s : σ) (u : User)
    (id : String) :
    ((deleteNote env eng s u id).1.status = 400 ↔ env.isValid id = false) ∧
    ((deleteNote env eng s u id).1.status = 404 ↔ env.isValid id = true ∧
      ∃ s', eng.noteFindOneAndDelete s id u._id = .ok (s', none)) ∧
    ((deleteNote env eng s u id).1.status = 500 ↔ env.isValid id = true ∧
      ∃ msg, eng.noteFindOneAndDelete s id u._id = .error msg) ∧
    (∀ msg, env.isValid id = true → eng.noteFindOneAndDelete s id u._id = .error msg →
      deleteNote env eng s u id = (⟨500, .errorDetails "Failed to delete note" msg⟩, s)) ∧
    (env.isValid id = false →
      deleteNote env eng s u id = (⟨400, .error "Invalid note ID format"⟩, s)) ∧
    (∀ s', env.isValid id = true → eng.noteFindOneAndDelete s id u._id = .ok (s', none) →
      deleteNote env eng s u id = (⟨404, .error "Note not found"⟩, s')) ∧
    ((deleteNote env eng s u id).1.status = 204 ∨ (deleteNote env eng s u id).1.status = 400 ∨
      (deleteNote env eng s u id).1.status = 404 ∨ (deleteNote env eng s u id).1.status = 500) ∧
    (deleteNote env eng s u id).1.status ≠ 401 := by
  unfold deleteNote
  cases hv : env.isValid id
  · simp
  · rcases h : eng.noteFindOneAndDelete s id u._id with msg | ⟨s', _ | n⟩ <;> simp

theorem register_status {σ : Type} (env : Env) (eng : Engine σ) (amb : Ambient) (s : σ)
    (email password : Option String) :
    ((register env eng amb s email password).1.status = 201 ∨
      (register env eng amb s email password).1.status = 400) ∧
    ((register env eng amb s email password).1.status = 400 →
      ∃ msg, (register env eng amb s email password).1.body = .error msg) ∧
    (falsy email = true ∨ falsy password = true →
      register env eng amb s email password =
        (⟨400, .error "Email and password are required"⟩, s)) ∧
    (∀ msg, falsy email = false → falsy password = false →
      eng.userFindOneByEmail s (fieldValue email) = .error msg →
      register env eng amb s email password = (⟨400, .error msg⟩, s)) ∧
    (∀ msg, falsy email = false → falsy password = false →
      eng.userFindOneByEmail s (fieldValue email) = .ok none →
      eng.userSave s (newUser env amb (fieldValue email) (fieldValue password)) = .error msg →
      register env eng amb s email password = (⟨400, .error msg⟩, s)) ∧
    (∀ u, falsy email = false → falsy password = false →
      eng.userFindOneByEmail s (fieldValue email) = .ok (some u) →
      register env eng amb s email password = (⟨400, .error "Email already registered"⟩, s)) := by
  unfold register
  cases hfe : falsy email <;> cases hfp : falsy password
  · rcases h : eng.userFindOneByEmail s (fieldValue email) with msg | (_ | u)
    · simp
    · rcases h2 : eng.userSave s (newUser env amb (fieldValue email) (fieldValue password))
        with msg | ⟨s', u⟩ <;> simp
    · simp
  · simp
  · simp
  · simp

theorem login_status {σ : Type} (env : Env) (eng : Engine σ) (s : σ)
    (email password : Option String) :
    ((login env eng s email password).1.status = 401 ↔
      falsy email = false ∧ falsy password = false ∧
      (eng.userFindOneByEmail s (fieldValue email) = .ok none ∨
        ∃ u, eng.userFindOneByEmail s (fieldValue email) = .ok (some u) ∧
          env.comparePassword u.password (fieldValue password) = false)) ∧
    ((login env eng s email password).1.status = 401 →
      (login env eng s email password).1.body = .error "Invalid login credentials") ∧
    ((login env eng s email password).1.status = 400 ↔
      (falsy email = true ∨ falsy password = true) ∨
      ∃ msg, eng.userFindOneByEmail s (fieldValue email) = .error msg) ∧
    (falsy email = true ∨ falsy password = true →
      login env eng s email password =
        (⟨400, .error "Email and password are required"⟩, s)) ∧
    (∀ msg, falsy email = false → falsy password = false →
      eng.userFindOneByEmail s (fieldValue email) = .error msg →
      login env eng s email password = (⟨400, .error msg⟩, s)) ∧
    ((login env eng s email password).1.status = 200 ∨
      (login env eng s email password).1.status = 400 ∨
      (login env eng s email password).1.status = 401) := by
  unfold login
  cases hfe : falsy email <;> cases hfp : falsy password
  · rcases h : eng.userFindOneByEmail s (fieldValue email) with msg | (_ | u)
    · simp
    · simp
    · cases hc : env.comparePassword u.password (fieldValue password) <;> simp [hc]
  · simp
  · simp
  · simp

end NotesApp

namespace NotesApp

theorem protectedRoute_401 {σ : Type} (env : Env) (eng : Engine σ) (s : σ)
    (header : Option String) (handler : User → Response × σ)
    (h : ∀ u, (handler u).1.status ≠ 401) :
    (protectedRoute env eng s header handler).1.status = 401 ↔
      auth env eng s header = .respond pleaseAuthenticate := by
  unfold protectedRoute
  rcases auth_cases env eng s header with ha | ⟨u, t, ha⟩
  · rw [ha]; simp [pleaseAuthenticate]
  · rw [ha]; simp [h u]

theorem protectedRoute_errorField {σ : Type} (env : Env) (eng : Engine σ) (s : σ)
    (header : Option String) (handler : User → Response × σ)
    (h : ∀ u, 400 ≤ (handler u).1.status → ∃ msg, (handler u).1.body.errorField = some msg) :
    400 ≤ (protectedRoute env eng s header handler).1.status →
      ∃ msg, (protectedRoute env eng s header handler).1.body.errorField = some msg := by
  unfold protectedRoute
  rcases auth_cases env eng s header with ha | ⟨u, t, ha⟩
  · rw [ha]; intro _; exact ⟨_, rfl⟩
  · rw [ha]; exact h u

theorem getNotes_errorField {σ : Type} (eng : Engine σ) (s : σ) (u : User) :
    400 ≤ (getNotes eng s u).1.status →
      ∃ msg, (getNotes eng s u).1.body.errorField = some msg := by
  unfold getNotes
  rcases eng.noteFindSorted s u._id with msg | l <;> simp [Body.errorField]

theorem postNote_errorField {σ : Type} (eng : Engine σ) (amb : Ambient) (s : σ) (u : User)
    (text : Option String) :
    400 ≤ (postNote eng amb s u text).1.status →
      ∃ msg, (postNote eng amb s u text).1.body.errorField = some msg := by
  unfold postNote
  cases falsy text
  · rcases eng.noteSave s (newNote amb (fieldValue text) u._id) with msg | ⟨s', n⟩ <;>
      simp [Body.errorField]
  · simp [Body.errorField]

theorem putNote_errorField {σ : Type} (eng : Engine σ) (s : σ) (u : User) (id : String)
    (text : Option String) :
    400 ≤ (putNote eng s u id text).1.status →
      ∃ msg, (putNote eng s u id text).1.body.errorField = some msg := by
  unfold putNote
  cases falsy text
  · rcases eng.noteFindOneAndUpdate s id u._id (fieldValue text) with msg | ⟨s', _ | n⟩ <;>
      simp [Body.errorField]
  · simp [Body.errorField]

theorem deleteNote_errorField {σ : Type} (env : Env) (eng : Engine σ) (s : σ) (u : User)
    (id : String) :
    400 ≤ (deleteNote env eng s u id).1.status →
      ∃ msg, (deleteNote env eng s u id).1.body.errorField = some msg := by
  unfold deleteNote
  cases env.isValid id
  · simp [Body.errorField]
  · rcases eng.noteFindOneAndDelete s id u._id with msg | ⟨s', _ | n⟩ <;>
      simp [Body.errorField]

theorem login_errorField {σ : Type} (env : Env) (eng : Engine σ) (s : σ)
    (email password : Option String) :
    400 ≤ (login env eng s email password).1.status →
      ∃ msg, (login env eng s email password).1.body = .error msg := by
  unfold login
  cases falsy email <;> cases falsy password
  · rcases eng.userFindOneByEmail s (fieldValue email) with msg | (_ | u)
    · simp
    · simp
    · cases hc : env.comparePassword u.password (fieldValue password) <;> simp [hc]
  · simp
  · simp
  · simp

/-- C10 fails where a catch block does not answer 500, and in the shape of the
500 bodies: with an unreachable persistence engine, register and login answer
400 (not 500) with the thrown message; a note route called with a token the
server signed answers 401 `Please authenticate` (not 500), because the user
lookup of the middleware threw; and the list handler answers 500 with a body
that carries a `details` field next to `error`. -/
theorem engine_failure_counterexample :
    (register demoEnv downEngine ⟨aliceId, 0⟩ () (some "a@x.com") (some "secret")).1 =
      ⟨400, .error "connection lost"⟩ ∧
    (login demoEnv downEngine () (some "a@x.com") (some "secret")).1 =
      ⟨400, .error "connection lost"⟩ ∧
    (register demoEnv downEngine ⟨aliceId, 0⟩ () (some "a@x.com") (some "secret")).1.status
      ≠ 500 ∧
    demoEnv.verify (stripBearer "Bearer jwt.0000000000000000000000a1") = some aliceId ∧
    downEngine.userFindOneById () aliceId = .error "connection lost" ∧
    (apiNotesGet demoEnv downEngine () (some "Bearer jwt.0000000000000000000000a1")).1 =
      ⟨401, .error "Please authenticate"⟩ ∧
    (getNotes downEngine () alice).1 =
      ⟨500, .errorDetails "Failed to fetch notes" "connection lost"⟩ ∧
    (getNotes downEngine () alice).1.body.isErrorOnly = false := by
  refine ⟨by decide, by decide, by decide, by decide, rfl, by decide, by decide, by decide⟩

/-- C10, amended. Statuses of error responses, for every engine and store.
* Middleware: it answers 401 `Please authenticate` exactly when the header is
  absent, the token is empty, `jwt.verify` throws, the user lookup finds
  nobody, or the user lookup throws; a note route has status 401 exactly
  when the middleware answers.
* Note handlers, past the middleware: create and update answer 400 exactly
  when the text is missing or empty, delete answers 400 exactly when the
  identifier is malformed; update and delete answer 404 exactly when the
  request passed that check and the engine found no note with the identifier
  owned by the caller; each handler answers 500 exactly when the request
  passed the check and the engine threw, with a body holding a fixed `error`
  message and the thrown message as `details`.
* Register and login: missing or empty email or password is answered 400
  `Email and password are required`; a thrown error is answered with status
  400 and the thrown message as `error`; register answers only 201 or 400,
  400 also for an email already registered; login answers 401 exactly when
  both fields are present and the email is unknown or the hash comparison
  rejects the password, and 400 exactly when a field is missing or the
  lookup throws.
* Every response with status 400 or above has an `error` field. -/
theorem error_status_mapping {σ : Type} (env : Env) (eng : Engine σ) (s : σ) :
    (∀ (header : Option String) (amb : Ambient) (id : String) (text : Option String),
      (auth env eng s header = .respond ⟨401, .error "Please authenticate"⟩ ↔
        header = none ∨
        ∃ hd, header = some hd ∧
          (stripBearer hd = "" ∨ env.verify (stripBearer hd) = none ∨
            ∃ uid, env.verify (stripBearer hd) = some uid ∧
              (eng.userFindOneById s uid = .ok none ∨
                ∃ msg, eng.userFindOneById s uid = .error msg))) ∧
      ((apiNotesGet env eng s header).1.status = 401 ↔
        auth env eng s header = .respond ⟨401, .error "Please authenticate"⟩) ∧
      ((apiNotesPost env eng amb s header text).1.status = 401 ↔
        auth env eng s header = .respond ⟨401, .error "Please authenticate"⟩) ∧
      ((apiNotesPut env eng s header id text).1.status = 401 ↔
        auth env eng s header = .respond ⟨401, .error "Please authenticate"⟩) ∧
      ((apiNotesDelete env eng s header id).1.status = 401 ↔
        auth env eng s header = .respond ⟨401, .error "Please authenticate"⟩)) ∧
    (∀ (u : User) (amb : Ambient) (id : String) (text : Option String),
      ((postNote eng amb s u text).1.status = 400 ↔ falsy text = true) ∧
      ((putNote eng s u id text).1.status = 400 ↔ falsy text = true) ∧
      ((deleteNote env eng s u id).1.status = 400 ↔ env.isValid id = false) ∧
      ((putNote eng s u id text).1.status = 404 ↔ falsy text = false ∧
        ∃ s', eng.noteFindOneAndUpdate s id u._id (fieldValue text) = .ok (s', none)) ∧
      ((deleteNote env eng s u id).1.status = 404 ↔ env.isValid id = true ∧
        ∃ s', eng.noteFindOneAndDelete s id u._id = .ok (s', none)) ∧
      ((getNotes eng s u).1.status = 500 ↔ ∃ msg, eng.noteFindSorted s u._id = .error msg) ∧
      ((postNote eng amb s u text).1.status = 500 ↔ falsy text = false ∧
        ∃ msg, eng.noteSave s (newNote amb (fieldValue text) u._id) = .error msg) ∧
      ((putNote eng s u id text).1.status = 500 ↔ falsy text = false ∧
        ∃ msg, eng.noteFindOneAndUpdate s id u._id (fieldValue text) = .error msg) ∧
      ((deleteNote env eng s u id).1.status = 500 ↔ env.isValid id = true ∧
        ∃ msg, eng.noteFindOneAndDelete s id u._id = .error msg) ∧
      (∀ msg, eng.noteFindSorted s u._id = .error msg →
        getNotes eng s u = (⟨500, .errorDetails "Failed to fetch notes" msg⟩, s)) ∧
      (∀ msg, falsy text = false →
        eng.noteSave s (newNote amb (fieldValue text) u._id) = .error msg →
        postNote eng amb s u text = (⟨500, .errorDetails "Failed to create note" msg⟩, s)) ∧
      (∀ msg, falsy text = false →
        eng.noteFindOneAndUpdate s id u._id (fieldValue text) = .error msg →
        putNote eng s u id text = (⟨500, .errorDetails "Failed to update note" msg⟩, s)) ∧
      (∀ msg, env.isValid id = true → eng.noteFindOneAndDelete s id u._id = .error msg →
        deleteNote env eng s u id =
          (⟨500, .errorDetails "Failed to delete note" msg⟩, s)) ∧
      (falsy text = true →
        postNote eng amb s u text = (⟨400, .error "Note text is required"⟩, s)) ∧
      (falsy text = true →
        putNote eng s u id text = (⟨400, .error "Note text is required"⟩, s)) ∧
      (env.isValid id = false →
        deleteNote env eng s u id = (⟨400, .error "Invalid note ID format"⟩, s)) ∧
      (∀ s', falsy text = false →
        eng.noteFindOneAndUpdate s id u._id (fieldValue text) = .ok (s', none) →
        putNote eng s u id text = (⟨404, .error "Note not found"⟩, s')) ∧
      (∀ s', env.isValid id = true → eng.noteFindOneAndDelete s id u._id = .ok (s', none) →
        deleteNote env eng s u id = (⟨404, .error "Note not found"⟩, s'))) ∧
    (∀ (amb : Ambient) (email password : Option String),
      ((register env eng amb s email password).1.status = 201 ∨
        (register env eng amb s email password).1.status = 400) ∧
      (falsy email = true ∨ falsy password = true →
        register env eng amb s email password =
          (⟨400, .error "Email and password are required"⟩, s)) ∧
      (∀ msg, falsy email = false → falsy password = false →
        eng.userFindOneByEmail s (fieldValue email) = .error msg →
        register env eng amb s email password = (⟨400, .error msg⟩, s)) ∧
      (∀ msg, falsy email = false → falsy password = false →
        eng.userFindOneByEmail s (fieldValue email) = .ok none →
        eng.userSave s (newUser env amb (fieldValue email) (fieldValue password)) =
          .error msg →
        register env eng amb s email password = (⟨400, .error msg⟩, s)) ∧
      (∀ u, falsy email = false → falsy password = false →
        eng.userFindOneByEmail s (fieldValue email) = .ok (some u) →
        register env eng amb s email password =
          (⟨400, .error "Email already registered"⟩, s)) ∧
      (falsy email = true ∨ falsy password = true →
        login env eng s email password =
          (⟨400, .error "Email and password are required"⟩, s)) ∧
      ((login env eng s email password).1.status = 401 ↔
        falsy email = false ∧ falsy password = false ∧
        (eng.userFindOneByEmail s (fieldValue email) = .ok none ∨
          ∃ u, eng.userFindOneByEmail s (fieldValue email) = .ok (some u) ∧
            env.comparePassword u.password (fieldValue password) = false)) ∧
      ((login env eng s email password).1.status = 401 →
        (login env eng s email password).1.body = .error "Invalid login credentials") ∧
      ((login env eng s email password).1.status = 400 ↔
        (falsy email = true ∨ falsy password = true) ∨
        ∃ msg, eng.userFindOneByEmail s (fieldValue email) = .error msg) ∧
      (∀ msg, falsy email = false → falsy password = false →
        eng.userFindOneByEmail s (fieldValue email) = .error msg →
        login env eng s email password = (⟨400, .error msg⟩, s))) ∧
    (∀ (header : Option String) (amb : Ambient) (id : String)
      (text email password : Option String),
      (400 ≤ (apiNotesGet env eng s header).1.status →
        ∃ msg, (apiNotesGet env eng s header).1.body.errorField = some msg) ∧
      (400 ≤ (apiNotesPost env eng amb s header text).1.status →
        ∃ msg, (apiNotesPost env eng amb s header text).1.body.errorField = some msg) ∧
      (400 ≤ (apiNotesPut env eng s header id text).1.status →
        ∃ msg, (apiNotesPut env eng s header id text).1.body.errorField = some msg) ∧
      (400 ≤ (apiNotesDelete env eng s header id).1.status →
        ∃ msg, (apiNotesDelete env eng s header id).1.body.errorField = some msg) ∧
      (400 ≤ (register env eng amb s email password).1.status →
        ∃ msg, (register env eng amb s email password).1.body = .error msg) ∧
      (400 ≤ (login env eng s email password).1.status →
        ∃ msg, (login env eng s email password).1.body = .error msg)) := by
  refine ⟨?_, ?_, ?_, ?_⟩
  · intro header amb id text
    exact ⟨auth_respond_iff env eng s header,
      protectedRoute_401 env eng s header _ (fun u => (getNotes_status eng s u).2.2.2),
      protectedRoute_401 env eng s header _
        (fun u => (postNote_status eng amb s u text).2.2.2.2.2),
      protectedRoute_401 env eng s header _
        (fun u => (putNote_status eng s u id text).2.2.2.2.2.2.2),
      protectedRoute_401 env eng s header _
        (fun u => (deleteNote_status env eng s u id).2.2.2.2.2.2.2)⟩
  · intro u amb id text
    have hg := getNotes_status eng s u
    have hpo := postNote_status eng amb s u text
    have hpu := putNote_status eng s u id text
    have hd := deleteNote_status env eng s u id
    exact ⟨hpo.1, hpu.1, hd.1, hpu.2.1, hd.2.1, hg.1, hpo.2.1, hpu.2.2.1, hd.2.2.1,
      hg.2.1, hpo.2.2.1, hpu.2.2.2.1, hd.2.2.2.1, hpo.2.2.2.1, hpu.2.2.2.2.1,
      hd.2.2.2.2.1, hpu.2.2.2.2.2.1, hd.2.2.2.2.2.1⟩
  · intro amb email password
    have hr := register_status env eng amb s email password
    have hl := login_status env eng s email password
    exact ⟨hr.1, hr.2.2.1, hr.2.2.2.1, hr.2.2.2.2.1, hr.2.2.2.2.2, hl.2.2.2.1, hl.1, hl.2.1,
      hl.2.2.1, hl.2.2.2.2.1⟩
  · intro header amb id text email password
    refine ⟨protectedRoute_errorField env eng s header _ (getNotes_errorField eng s),
      protectedRoute_errorField env eng s header _
        (fun u => postNote_errorField eng amb s u text),
      protectedRoute_errorField env eng s header _
        (fun u => putNote_errorField eng s u id text),
      protectedRoute_errorField env eng s header _
        (fun u => deleteNote_errorField env eng s u id), ?_,
      login_errorField env eng s email password⟩
    intro h400
    have hr := register_status env eng amb s email password
    rcases hr.1 with h | h
    · omega
    · exact hr.2.1 h

/-- Witness of C10: with the unreachable engine the list handler answers 500
with details, register answers 400, and the list route called with a signed
token answers 401; on the in-memory store a delete of a malformed identifier
answers 400. -/
theorem error_status_mapping_witness :
    getNotes downEngine () alice =
      (⟨500, .errorDetails "Failed to fetch notes" "connection lost"⟩, ()) ∧
    register demoEnv downEngine ⟨aliceId, 0⟩ () (some "a@x.com") (some "secret") =
      (⟨400, .error "connection lost"⟩, ()) ∧
    register demoEnv downEngine ⟨aliceId, 0⟩ () none (some "secret") =
      (⟨400, .error "Email and password are required"⟩, ()) ∧
    (apiNotesGet demoEnv downEngine () (some "Bearer jwt.0000000000000000000000a1")).1.status
      = 401 ∧
    (deleteNote demoEnv (memEngine hexCast) oneNote alice "abc").1.status = 400 :=
  ⟨(error_status_mapping demoEnv downEngine ()).2.1 alice ⟨aliceId, 0⟩ "abc" none
      |>.2.2.2.2.2.2.2.2.2.1 "connection lost" rfl,
   ((error_status_mapping demoEnv downEngine ()).2.2.1 ⟨aliceId, 0⟩ (some "a@x.com")
      (some "secret")).2.2.1 "connection lost" (by decide) (by decide) rfl,
   ((error_status_mapping demoEnv downEngine ()).2.2.1 ⟨aliceId, 0⟩ none
      (some "secret")).2.1 (Or.inl (by decide)),
   (((error_status_mapping demoEnv downEngine ()).1
      (some "Bearer jwt.0000000000000000000000a1") ⟨aliceId, 0⟩ "abc" none).2.1).mpr
      ((((error_status_mapping demoEnv downEngine ()).1
        (some "Bearer jwt.0000000000000000000000a1") ⟨aliceId, 0⟩ "abc" none).1).mpr
        (Or.inr ⟨_, rfl, Or.inr (Or.inr ⟨aliceId, by decide,
          Or.inr ⟨"connection lost", rfl⟩⟩)⟩)),
   ((error_status_mapping demoEnv (memEngine hexCast) oneNote).2.1 alice ⟨aliceId, 0⟩ "abc"
      none).2.2.1.mpr (by decide)⟩

end NotesApp
